import Mathlib

/-!
Verification of the analytics core of the penguin-statistics backend.

The development shallowly embeds the Go sources:
  * `internal/pkg/cache/set.go` — the process-local cache set with
    single-flight `MutexGetSet`;
  * `internal/service` drop-matrix service (the second document inside
    `internal/controller/v3/item.go`) — the drop-matrix calculator, the
    max-accumulable fold, the element-to-result converts, the refresh
    scheduler and the shim layer.

Conventions of the embedding:
  * Go `int` values (ids, quantities, times) are `Int`.
  * `time.Time` values are modelled by their unix-millisecond value as an
    `Int`; `UnixMilli()` is then the identity and `Before` / `After` are
    `<`.  `null.Int` and nil-able pointers become `Option`.
  * Go errors are `Except String` (the message) or `Option String` for
    functions that merely return an `error` value.
  * External capabilities (database queries, repositories) are parameters
    of the embedded functions; the embedding is of the code layered on
    top of them.
  * Go map iteration order is unspecified; where the code ranges over a
    map we iterate keys in first-occurrence order of the underlying
    insertions, which is one of the admissible orders.  No claim below
    depends on the order chosen.
-/

/-! ### Cache tier: `internal/pkg/cache/set.go` -/

/-- State of one cache `Set`: the key prefix (`NewSet` appends a colon)
and the entries of the underlying `go-cache` store, keyed by the
prefixed key.  Entry expiry needs a clock and is not modelled; the
`expire` argument of the operations is retained but inert. -/
structure CacheState (α : Type) where
  pfx : String
  entries : List (String × α)
deriving Repr

/-- `(c *Set) key(key)`: prefix the raw key. -/
def CacheState.key (c : CacheState α) (k : String) : String :=
  c.pfx ++ k

/-- `(c *Set) Get(key, dest)`: look the prefixed key up; `none` models the
`ErrNotFound` return, `some v` models a successful reflection copy into
`dest`. -/
def CacheState.get (c : CacheState α) (k : String) : Option α :=
  (c.entries.find? (fun e => e.1 = c.key k)).map (fun e => e.2)

/-- `(c *Set) Set(key, value, expire)`: store under the prefixed key and
return `nil` (modelled as `none`) for the error. -/
def CacheState.set (c : CacheState α) (k : String) (v : α) (expire : Int) :
    CacheState α × Option String :=
  ({ c with entries := (c.key k, v) :: c.entries.filter (fun e => ¬ e.1 = c.key k) }, none)

/-- `(c *Set) Delete(key)`: remove the prefixed key and return `nil`. -/
def CacheState.delete (c : CacheState α) (k : String) : CacheState α × Option String :=
  ({ c with entries := c.entries.filter (fun e => ¬ e.1 = c.key k) }, none)

/-- `(c *Set) Clear()`: flush every entry and return `nil`. -/
def CacheState.clear (c : CacheState α) : CacheState α × Option String :=
  ({ c with entries := [] }, none)

/-- `(c *Set) slowMutexGetSet(key, dest, valueFunc, expire)`: under the
per-set lock, re-check the cache; if still absent run the producer, and
on success store the value and copy it to `dest`.  The producer's
outcome is the `valueFunc : Except String α` argument; the returned pair
is the cache state after the call and the copied value or the error. -/
def slowMutexGetSet (c : CacheState α) (k : String) (valueFunc : Except String α)
    (expire : Int) : CacheState α × Except String α :=
  match c.get k with
  | some v => (c, .ok v)
  | none =>
    match valueFunc with
    | .error e => (c, .error e)
    | .ok value =>
      let r := c.set k value expire
      match r.2 with
      | some e => (r.1, .error e)
      | none => (r.1, .ok value)

/-- `(c *Set) MutexGetSet(key, dest, valueFunc, expire)`.  The fast-path
`Get` sees the state `cFast`; `cLocked` is the state once the per-set
lock has been acquired (a concurrent filler may have inserted the key in
between — in a quiescent run `cLocked = cFast`).  The first component of
the result is the `bool` the Go function returns. -/
def mutexGetSet (cFast cLocked : CacheState α) (k : String)
    (valueFunc : Except String α) (expire : Int) :
    Bool × CacheState α × Except String α :=
  match cFast.get k with
  | some v => (false, cFast, .ok v)
  | none =>
    let r := slowMutexGetSet cLocked k valueFunc expire
    (true, r.1, r.2)

/-! ### Drop-matrix data model: `internal/models` -/

/-- `models.TimeRange` (`rangeId` 0 is the ad-hoc marker). -/
structure TimeRange where
  rangeID : Int
  startTime : Int
  endTime : Int
deriving Repr, DecidableEq

/-- `models.TotalQuantityResultForDropMatrix`. -/
structure TotalQuantityResultForDropMatrix where
  stageID : Int
  itemID : Int
  totalQuantity : Int
deriving Repr, DecidableEq

/-- `models.TotalTimesResult`. -/
structure TotalTimesResult where
  stageID : Int
  totalTimes : Int
deriving Repr, DecidableEq

/-- `models.CombinedResultForDropMatrix`. -/
structure CombinedResultForDropMatrix where
  stageID : Int
  itemID : Int
  quantity : Int
  times : Int
  timeRange : TimeRange
deriving Repr, DecidableEq

/-- `models.DropMatrixElement`; `timeRange` is the inline descriptor set
only for ad-hoc (`rangeID = 0`) elements, nil otherwise. -/
structure DropMatrixElement where
  stageID : Int
  itemID : Int
  rangeID : Int
  quantity : Int
  times : Int
  server : String
  timeRange : Option TimeRange
deriving Repr, DecidableEq

/-- `models.OneDropMatrixElement`; `timeRange` is a nil-able pointer. -/
structure OneDropMatrixElement where
  stageID : Int
  itemID : Int
  quantity : Int
  times : Int
  timeRange : Option TimeRange
deriving Repr, DecidableEq

/-- `models.DropInfo`, restricted to the fields the calculator reads:
the stage and the nullable item id. -/
structure DropInfo where
  stageID : Int
  itemID : Option Int
deriving Repr, DecidableEq

/-- `combineDropMatrixResults(a, b)`: demand equal stage and item ids and
sum quantities and times.  The Go result is built without a `TimeRange`,
i.e. with a nil pointer. -/
def combineDropMatrixResults (a b : OneDropMatrixElement) :
    Except String OneDropMatrixElement :=
  if ¬ a.stageID = b.stageID then
    .error "stageId not match"
  else if ¬ a.itemID = b.itemID then
    .error "itemId not match"
  else
    .ok { stageID := a.stageID, itemID := a.itemID,
          quantity := a.quantity + b.quantity, times := a.times + b.times,
          timeRange := none }

/-! ### Theorems for the cache claims -/

/-- C9: `Set`, `Delete` and `Clear` always return a nil error, so the
branch of `slowMutexGetSet` that handles a non-nil error from `Set` is
unreachable and `slowMutexGetSet` errors exactly when the producer
does. -/
theorem cache_write_ops_never_fail {α : Type} (c : CacheState α) (k : String) (v : α)
    (expire : Int) :
    (c.set k v expire).2 = none ∧ (c.delete k).2 = none ∧ c.clear.2 = none ∧
    (∀ (valueFunc : Except String α) (msg : String),
      (slowMutexGetSet c k valueFunc expire).2 = .error msg →
        valueFunc = .error msg) := by
  refine ⟨rfl, rfl, rfl, ?_⟩
  intro valueFunc msg h
  unfold slowMutexGetSet at h
  cases hget : c.get k with
  | some v' => simp [hget] at h
  | none =>
    cases valueFunc with
    | error e => simp [hget] at h; simp [h]
    | ok value => simp [hget, CacheState.set] at h

/-- Witness for `cache_write_ops_never_fail` at a concrete cache, key and
producer. -/
theorem cache_write_ops_never_fail_witness :
    ((CacheState.mk "t:" ([] : List (String × Nat))).set "k" 3 60).2 = none ∧
    ((CacheState.mk "t:" ([] : List (String × Nat))).delete "k").2 = none ∧
    (CacheState.mk "t:" ([] : List (String × Nat))).clear.2 = none ∧
    (∀ (valueFunc : Except String Nat) (msg : String),
      (slowMutexGetSet (CacheState.mk "t:" []) "k" valueFunc 60).2 = .error msg →
        valueFunc = .error msg) :=
  cache_write_ops_never_fail (CacheState.mk "t:" []) "k" 3 60

/-- C6: a producer error propagates out of `slowMutexGetSet`, the cache
state is unchanged, and (the lock having been released) a later call with
a succeeding producer runs it and stores its value. -/
theorem producer_error_not_cached {α : Type} (c : CacheState α) (k : String)
    (msg : String) (expire : Int) (h : c.get k = none) :
    slowMutexGetSet c k (.error msg) expire = (c, .error msg) ∧
    (∀ (v : α) (expire2 : Int),
      slowMutexGetSet c k (.ok v) expire2 = ((c.set k v expire2).1, .ok v)) := by
  constructor
  · unfold slowMutexGetSet
    simp [h]
  · intro v expire2
    unfold slowMutexGetSet
    simp [h, CacheState.set]

/-- Witness for `producer_error_not_cached` on an initially empty cache. -/
theorem producer_error_not_cached_witness :
    slowMutexGetSet (CacheState.mk "t:" ([] : List (String × Nat))) "k" (.error "boom") 60 =
      (CacheState.mk "t:" [], .error "boom") ∧
    (∀ (v : Nat) (expire2 : Int),
      slowMutexGetSet (CacheState.mk "t:" ([] : List (String × Nat))) "k" (.ok v) expire2 =
        (((CacheState.mk "t:" []).set "k" v expire2).1, .ok v)) :=
  producer_error_not_cached (CacheState.mk "t:" []) "k" "boom" 60 rfl

/-- C5 (counter-evaluation): when the fast-path `Get` misses but the key
is present at the locked re-check, `MutexGetSet` returns the cached value
with a first return value of `true`, although the value was obtained from
the cache and the producer was never consulted (here the producer would
fail, yet the call succeeds with the cached `42`).  This contradicts the
function's own doc comment, which promises `false` whenever the value was
got from the cache. -/
theorem mutexGetSet_flag_true_on_locked_recheck_hit :
    mutexGetSet (CacheState.mk "t:" ([] : List (String × Nat)))
      (CacheState.mk "t:" [("t:k", 42)]) "k" (.error "producer must not run") 60 =
      (true, CacheState.mk "t:" [("t:k", 42)], .ok 42) := by
  rfl

/-- C10: `combineDropMatrixResults` is commutative: it errs exactly when
the stage or item ids differ (a symmetric condition), and when both
orders succeed the results agree on stage, item, quantity and times. -/
theorem combineDropMatrixResults_comm (a b : OneDropMatrixElement) :
    ((∃ msg, combineDropMatrixResults a b = .error msg) ↔
      (¬ a.stageID = b.stageID ∨ ¬ a.itemID = b.itemID)) ∧
    ((∃ msg, combineDropMatrixResults a b = .error msg) ↔
      (∃ msg, combineDropMatrixResults b a = .error msg)) ∧
    (∀ r1 r2, combineDropMatrixResults a b = .ok r1 →
      combineDropMatrixResults b a = .ok r2 →
      r1.stageID = r2.stageID ∧ r1.itemID = r2.itemID ∧
      r1.quantity = r2.quantity ∧ r1.times = r2.times) := by
  have herr : ∀ x y : OneDropMatrixElement,
      (∃ msg, combineDropMatrixResults x y = .error msg) ↔
        (¬ x.stageID = y.stageID ∨ ¬ x.itemID = y.itemID) := by
    intro x y
    unfold combineDropMatrixResults
    by_cases hs : x.stageID = y.stageID
    · by_cases hi : x.itemID = y.itemID
      · simp [hs, hi]
      · simp [hs, hi]
    · simp [hs]
  refine ⟨herr a b, ?_, ?_⟩
  · rw [herr a b, herr b a]
    constructor
    · rintro (h | h)
      · exact Or.inl (fun e => h e.symm)
      · exact Or.inr (fun e => h e.symm)
    · rintro (h | h)
      · exact Or.inl (fun e => h e.symm)
      · exact Or.inr (fun e => h e.symm)
  · intro r1 r2 h1 h2
    unfold combineDropMatrixResults at h1 h2
    by_cases hs : a.stageID = b.stageID
    · by_cases hi : a.itemID = b.itemID
      · rw [if_neg (not_not_intro hs), if_neg (not_not_intro hi)] at h1
        rw [if_neg (not_not_intro hs.symm), if_neg (not_not_intro hi.symm)] at h2
        injection h1 with h1
        injection h2 with h2
        subst h1
        subst h2
        exact ⟨hs, hi, Int.add_comm _ _, Int.add_comm _ _⟩
      · rw [if_neg (not_not_intro hs), if_pos hi] at h1
        simp at h1
    · rw [if_pos hs] at h1
      simp at h1

/-- Witness for `combineDropMatrixResults_comm`: both orders of combining
two matching concrete elements yield `⟨1, 2, 13, 24⟩`. -/
theorem combineDropMatrixResults_comm_witness :
    (OneDropMatrixElement.mk 1 2 13 24 none).stageID =
      (OneDropMatrixElement.mk 1 2 13 24 none).stageID ∧
    (OneDropMatrixElement.mk 1 2 13 24 none).itemID =
      (OneDropMatrixElement.mk 1 2 13 24 none).itemID ∧
    (OneDropMatrixElement.mk 1 2 13 24 none).quantity =
      (OneDropMatrixElement.mk 1 2 13 24 none).quantity ∧
    (OneDropMatrixElement.mk 1 2 13 24 none).times =
      (OneDropMatrixElement.mk 1 2 13 24 none).times :=
  (combineDropMatrixResults_comm ⟨1, 2, 3, 4, none⟩ ⟨1, 2, 10, 20, none⟩).2.2
    ⟨1, 2, 13, 24, none⟩ ⟨1, 2, 13, 24, none⟩ (by rfl) (by rfl)

/-! ### Shim layer: `applyShimForDropMatrixQuery` -/

/-- `constants.FakeEndTimeMilli`.  Modelled from the spec: the constants
package is not among the sources; the spec (§9.4) describes it as "a
specific millisecond constant [that] signals open-ended".  Only its role
as a sentinel matters below, never its value. -/
def FakeEndTimeMilli : Int := 62141368800000

/-- The environment `applyShimForDropMatrixQuery` runs in:
`showClosedZones`; the distinct stage ids of the server's current drop
infos (the Go computes them only when `showClosedZones` is false, and
only consults them then); the stage and item filters as the lists
obtained from splitting the comma-separated parameters (empty parameter
string gives the empty list); and the `GetStageById` / `GetItemById`
resolutions to external string ids, `none` modelling a lookup error. -/
structure ShimEnv where
  showClosedZones : Bool
  openingStageIds : List Int
  stageFilter : List String
  itemFilter : List String
  arkStageId : Int → Option String
  arkItemId : Int → Option String

/-- `shims.OneDropMatrixElement`: the wire shape with string ids,
unix-millisecond timestamps and a nullable end time. -/
structure ShimsOneDropMatrixElement where
  stageID : String
  itemID : String
  quantity : Int
  times : Int
  startTime : Int
  endTime : Option Int
deriving Repr, DecidableEq

/-- The body of the `applyShimForDropMatrixQuery` loop on one element of
`queryResult.Matrix`: `.error` when a consulted id lookup fails (which
aborts the whole query), `.ok none` when the element is dropped by the
closed-zone filter, the stage filter or the item filter, `.ok (some x)`
when the element is emitted.  The Go dereferences the element's
`TimeRange` pointer unconditionally; producers always set it, and the
`getD` default stands in for the nil pointer that would otherwise
panic. -/
def shimStep (env : ShimEnv) (el : OneDropMatrixElement) :
    Except String (Option ShimsOneDropMatrixElement) :=
  if env.showClosedZones = false ∧ el.stageID ∉ env.openingStageIds then
    .ok none
  else
    match env.arkStageId el.stageID with
    | none => .error "stage not found"
    | some arkStage =>
      if ¬ env.stageFilter = [] ∧ arkStage ∉ env.stageFilter then
        .ok none
      else
        match env.arkItemId el.itemID with
        | none => .error "item not found"
        | some arkItem =>
          if ¬ env.itemFilter = [] ∧ arkItem ∉ env.itemFilter then
            .ok none
          else
            let tr := el.timeRange.getD ⟨0, 0, 0⟩
            .ok (some { stageID := arkStage, itemID := arkItem,
                        quantity := el.quantity, times := el.times,
                        startTime := tr.startTime,
                        endTime := if tr.endTime = FakeEndTimeMilli then none
                                   else some tr.endTime })

/-- The error-free projection of `shimStep`: the element `shimStep`
emits, or `none` when it skips or aborts. -/
def shimOneDropMatrixElement (env : ShimEnv) (el : OneDropMatrixElement) :
    Option ShimsOneDropMatrixElement :=
  match shimStep env el with
  | .ok (some x) => some x
  | _ => none

/-- `applyShimForDropMatrixQuery`, iterating `queryResult.Matrix` in
order and running `shimStep` on each element: a step error aborts the
whole query, a skipped element contributes nothing, an emitted element
is appended. -/
def applyShimForDropMatrixQuery (env : ShimEnv) :
    List OneDropMatrixElement → Except String (List ShimsOneDropMatrixElement)
  | [] => .ok []
  | el :: rest =>
    match shimStep env el with
    | .error e => .error e
    | .ok none => applyShimForDropMatrixQuery env rest
    | .ok (some x) =>
      match applyShimForDropMatrixQuery env rest with
      | .error e => .error e
      | .ok out => .ok (x :: out)

/-- On a successful query the shim's output is exactly the per-element
projection of the input, skips included. -/
theorem applyShimForDropMatrixQuery_ok_filterMap (env : ShimEnv) :
    ∀ (els : List OneDropMatrixElement) (out : List ShimsOneDropMatrixElement),
      applyShimForDropMatrixQuery env els = .ok out →
      out = els.filterMap (shimOneDropMatrixElement env) := by
  intro els
  induction els with
  | nil =>
    intro out h
    simp only [applyShimForDropMatrixQuery] at h
    injection h with h
    simp [h.symm]
  | cons el rest ih =>
    intro out h
    simp only [applyShimForDropMatrixQuery] at h
    simp only [List.filterMap_cons, shimOneDropMatrixElement]
    cases hstep : shimStep env el with
    | error e => simp only [hstep] at h; exact Except.noConfusion h
    | ok o =>
      cases o with
      | none =>
        simp only [hstep] at h ⊢
        exact ih out h
      | some x =>
        simp only [hstep] at h ⊢
        cases hrest : applyShimForDropMatrixQuery env rest with
        | error e => simp only [hrest] at h; exact Except.noConfusion h
        | ok out2 =>
          simp only [hrest] at h
          injection h with h
          subst h
          simp [ih out2 hrest]

/-- A successful shim of `el :: rest` contains a successful shim of
`rest`, and the head's step did not abort. -/
theorem applyShimForDropMatrixQuery_cons_ok (env : ShimEnv)
    (el : OneDropMatrixElement) (rest : List OneDropMatrixElement)
    (out : List ShimsOneDropMatrixElement)
    (h : applyShimForDropMatrixQuery env (el :: rest) = .ok out) :
    (∃ o, shimStep env el = .ok o) ∧
    (∃ out2, applyShimForDropMatrixQuery env rest = .ok out2) := by
  simp only [applyShimForDropMatrixQuery] at h
  cases hstep : shimStep env el with
  | error e => simp only [hstep] at h; exact Except.noConfusion h
  | ok o =>
    refine ⟨⟨o, rfl⟩, ?_⟩
    cases o with
    | none => simp only [hstep] at h; exact ⟨out, h⟩
    | some x =>
      simp only [hstep] at h
      cases hrest : applyShimForDropMatrixQuery env rest with
      | error e => simp only [hrest] at h; exact Except.noConfusion h
      | ok out2 => exact ⟨out2, rfl⟩

/-- A step that did not abort resolved the ids it consulted: the stage id
whenever the element passed the closed-zone filter, and the item id as
soon as the resolved stage also passed the stage filter. -/
theorem shimStep_ok_resolves (env : ShimEnv) (el : OneDropMatrixElement)
    (o : Option ShimsOneDropMatrixElement) (h : shimStep env el = .ok o)
    (hopen : env.showClosedZones = true ∨ el.stageID ∈ env.openingStageIds) :
    ∃ arkStage, env.arkStageId el.stageID = some arkStage ∧
      ((env.stageFilter = [] ∨ arkStage ∈ env.stageFilter) →
        ∃ arkItem, env.arkItemId el.itemID = some arkItem) := by
  have hcond : ¬ (env.showClosedZones = false ∧ el.stageID ∉ env.openingStageIds) := by
    intro hc
    rcases hopen with h1 | h1
    · exact Bool.noConfusion (h1.symm.trans hc.1)
    · exact hc.2 h1
  unfold shimStep at h
  rw [if_neg hcond] at h
  cases hstage : env.arkStageId el.stageID with
  | none => simp only [hstage] at h; exact Except.noConfusion h
  | some arkStage =>
    simp only [hstage] at h
    refine ⟨arkStage, rfl, ?_⟩
    intro hsf
    have hc2 : ¬ (¬ env.stageFilter = [] ∧ arkStage ∉ env.stageFilter) := by
      intro hc
      rcases hsf with h1 | h1
      · exact hc.1 h1
      · exact hc.2 h1
    rw [if_neg hc2] at h
    cases hitem : env.arkItemId el.itemID with
    | none => simp only [hitem] at h; exact Except.noConfusion h
    | some arkItem => exact ⟨arkItem, rfl⟩

/-- C7: on a successful query, every input element that passes the shim's
view filters (open-zone, stage and item inclusion) is emitted exactly
once — the output is the input's `filterMap` image, and such an element's
projection is `some` — with `quantity` and `times` unchanged, `startTime`
the range's start in unix milliseconds, and `endTime` the range's end in
unix milliseconds, nulled exactly when it equals the `FakeEndTimeMilli`
sentinel. -/
theorem shim_fidelity_for_passing_elements (env : ShimEnv)
    (els : List OneDropMatrixElement) (out : List ShimsOneDropMatrixElement)
    (h : applyShimForDropMatrixQuery env els = .ok out) :
    out = els.filterMap (shimOneDropMatrixElement env) ∧
    (∀ (el : OneDropMatrixElement) (tr : TimeRange) (arkStage arkItem : String),
      el.timeRange = some tr →
      (env.showClosedZones = true ∨ el.stageID ∈ env.openingStageIds) →
      env.arkStageId el.stageID = some arkStage →
      (env.stageFilter = [] ∨ arkStage ∈ env.stageFilter) →
      env.arkItemId el.itemID = some arkItem →
      (env.itemFilter = [] ∨ arkItem ∈ env.itemFilter) →
      shimOneDropMatrixElement env el =
        some { stageID := arkStage, itemID := arkItem, quantity := el.quantity,
               times := el.times, startTime := tr.startTime,
               endTime := if tr.endTime = FakeEndTimeMilli then none
                          else some tr.endTime }) := by
  refine ⟨applyShimForDropMatrixQuery_ok_filterMap env els out h, ?_⟩
  intro el tr arkStage arkItem htr hopen hstage hsf hitem hif
  have hcond : ¬ (env.showClosedZones = false ∧ el.stageID ∉ env.openingStageIds) := by
    intro hc
    rcases hopen with h1 | h1
    · exact Bool.noConfusion (h1.symm.trans hc.1)
    · exact hc.2 h1
  have hc2 : ¬ (¬ env.stageFilter = [] ∧ arkStage ∉ env.stageFilter) := by
    intro hc
    rcases hsf with h1 | h1
    · exact hc.1 h1
    · exact hc.2 h1
  have hc3 : ¬ (¬ env.itemFilter = [] ∧ arkItem ∉ env.itemFilter) := by
    intro hc
    rcases hif with h1 | h1
    · exact hc.1 h1
    · exact hc.2 h1
  have hstep : shimStep env el =
      .ok (some { stageID := arkStage, itemID := arkItem, quantity := el.quantity,
                  times := el.times, startTime := tr.startTime,
                  endTime := if tr.endTime = FakeEndTimeMilli then none
                             else some tr.endTime }) := by
    unfold shimStep
    rw [if_neg hcond]
    simp only [hstage]
    rw [if_neg hc2]
    simp only [hitem]
    rw [if_neg hc3]
    simp only [htr, Option.getD_some]
  simp only [shimOneDropMatrixElement, hstep]

/-- A concrete shim environment for the witnesses: stage 1 resolves to
"main_01-07", item 2 to "30012", no filters, closed zones shown. -/
def shimEnv0 : ShimEnv :=
  { showClosedZones := true, openingStageIds := [], stageFilter := [],
    itemFilter := [],
    arkStageId := fun s => if s = 1 then some "main_01-07" else none,
    arkItemId := fun i => if i = 2 then some "30012" else none }

/-- A concrete drop-matrix query element for the witnesses. -/
def shimEl0 : OneDropMatrixElement := ⟨1, 2, 5, 10, some ⟨3, 100, 200⟩⟩

/-- Witness for `shim_fidelity_for_passing_elements` on a one-element
query. -/
theorem shim_fidelity_for_passing_elements_witness :
    shimOneDropMatrixElement shimEnv0 shimEl0 =
      some { stageID := "main_01-07", itemID := "30012", quantity := 5,
             times := 10, startTime := 100,
             endTime := if (200 : Int) = FakeEndTimeMilli then none
                        else some 200 } :=
  (shim_fidelity_for_passing_elements shimEnv0 [shimEl0]
      [⟨"main_01-07", "30012", 5, 10, 100, some 200⟩] (by rfl)).2
    shimEl0 ⟨3, 100, 200⟩ "main_01-07" "30012" rfl (Or.inl rfl) (by rfl)
    (Or.inl rfl) (by rfl) (Or.inl rfl)

/-- C8 (amended): on a successful query, every element that passed the
closed-zone filter had its stage id resolved, and also its item id if the
resolved stage passed the stage filter — equivalently, an unresolved id
at a point the shim consults it aborts the whole query; no element is
skipped because of an unresolved id. -/
theorem shim_unresolved_id_fatal_for_reached_elements (env : ShimEnv) :
    ∀ (els : List OneDropMatrixElement) (out : List ShimsOneDropMatrixElement),
      applyShimForDropMatrixQuery env els = .ok out →
      ∀ el ∈ els,
        (env.showClosedZones = true ∨ el.stageID ∈ env.openingStageIds) →
        ∃ arkStage, env.arkStageId el.stageID = some arkStage ∧
          ((env.stageFilter = [] ∨ arkStage ∈ env.stageFilter) →
            ∃ arkItem, env.arkItemId el.itemID = some arkItem) := by
  intro els
  induction els with
  | nil =>
    intro out h el hel
    exact absurd hel (List.not_mem_nil el)
  | cons e rest ih =>
    intro out h el hel hopen
    obtain ⟨⟨o, hstep⟩, ⟨out2, hrest⟩⟩ :=
      applyShimForDropMatrixQuery_cons_ok env e rest out h
    rcases List.mem_cons.mp hel with rfl | hmem
    · exact shimStep_ok_resolves env el o hstep hopen
    · exact ih out2 hrest el hmem hopen

/-- Witness for `shim_unresolved_id_fatal_for_reached_elements` on a
one-element query whose element passes the closed-zone filter. -/
theorem shim_unresolved_id_fatal_for_reached_elements_witness :
    ∃ arkStage, shimEnv0.arkStageId shimEl0.stageID = some arkStage ∧
      ((shimEnv0.stageFilter = [] ∨ arkStage ∈ shimEnv0.stageFilter) →
        ∃ arkItem, shimEnv0.arkItemId shimEl0.itemID = some arkItem) :=
  shim_unresolved_id_fatal_for_reached_elements shimEnv0 [shimEl0]
    [⟨"main_01-07", "30012", 5, 10, 100, some 200⟩] (by rfl)
    shimEl0 (List.mem_singleton.mpr rfl) (Or.inl rfl)

/-- A shim environment in which no id resolves, closed zones are hidden
and no stage is open. -/
def shimEnvClosed : ShimEnv :=
  { showClosedZones := false, openingStageIds := [], stageFilter := [],
    itemFilter := [],
    arkStageId := fun _ => none, arkItemId := fun _ => none }

/-- C8 counterexample: the query result holds an element whose stage id
does not resolve, yet the whole query succeeds — the element is dropped
by the closed-zone filter before its ids are consulted.  So "any
unresolved id of an element in the query result is fatal" is false as
stated. -/
theorem shim_unresolved_id_not_fatal_when_filtered :
    shimEnvClosed.arkStageId 1 = none ∧
    shimEnvClosed.arkItemId 2 = none ∧
    applyShimForDropMatrixQuery shimEnvClosed
      [⟨1, 2, 5, 10, some ⟨3, 100, 200⟩⟩] = .ok [] :=
  ⟨rfl, rfl, by rfl⟩

/-! ### Drop-matrix calculator: `combineQuantityAndTimesResults` and
`calcDropMatrixForTimeRanges` -/

/-- Distinct values of a list in first-occurrence order: the key order of
a linq `GroupByT` and the element set of a Go map built by insertion. -/
def firstOccurrences : List Int → List Int
  | [] => []
  | k :: ks => k :: (firstOccurrences ks).filter (fun x => ¬ x = k)

/-- linq `GroupByT` with an `Int` key: one group per distinct key in
first-occurrence order, each group keeping its elements in encounter
order. -/
def groupPairsBy (f : α → Int) (xs : List α) : List (Int × List α) :=
  (firstOccurrences (xs.map f)).map (fun k => (k, xs.filter (fun x => f x = k)))

/-- The `resultsMap` built by `ToMapByT` for one stage's quantity rows:
item id to total quantity, a later duplicate overwriting an earlier one.
Iterated in first-occurrence order of the item ids (Go map order is
unspecified; no theorem below depends on this choice). -/
def quantityMapForStage (g : List TotalQuantityResultForDropMatrix) : List (Int × Int) :=
  (firstOccurrences (g.map (fun r => r.itemID))).map
    (fun i => (i, ((g.reverse.find? (fun r => r.itemID = i)).map
                    (fun r => r.totalQuantity)).getD 0))

/-- `quantityResultsMap[stageId]`: the per-stage item-to-quantity map; a
stage absent from the quantity results yields the nil map. -/
def quantityResultsMap (quantityResults : List TotalQuantityResultForDropMatrix)
    (stageId : Int) : List (Int × Int) :=
  quantityMapForStage (quantityResults.filter (fun r => r.stageID = stageId))

/-- `combineQuantityAndTimesResults(quantityResults, timesResults,
timeRange)`: group the times rows by stage; for each times row of a
stage and each `(item, quantity)` entry of that stage's quantity map,
emit a `CombinedResultForDropMatrix` carrying the supplied range. -/
def combineQuantityAndTimesResults
    (quantityResults : List TotalQuantityResultForDropMatrix)
    (timesResults : List TotalTimesResult) (timeRange : TimeRange) :
    List CombinedResultForDropMatrix :=
  ((groupPairsBy (fun r => r.stageID) timesResults).map (fun g =>
    (g.2.map (fun el =>
      (quantityResultsMap quantityResults g.1).map (fun p =>
        { stageID := g.1, itemID := p.1, quantity := p.2,
          times := el.totalTimes, timeRange := timeRange
          : CombinedResultForDropMatrix }))).flatten)).flatten

/-- The `combinedResults` loop of `calcDropMatrixForTimeRanges`: for each
range, run the two report aggregations and call the combiner.  The Go
rebinds `combinedResults` on every iteration (`combinedResults =
s.combineQuantityAndTimesResults(...)`), so each range's rows replace —
rather than extend — the previous ones; the fold reproduces that
faithfully. -/
def calcCombinedResults
    (quantityQuery : TimeRange → List TotalQuantityResultForDropMatrix)
    (timesQuery : TimeRange → List TotalTimesResult)
    (timeRanges : List TimeRange) : List CombinedResultForDropMatrix :=
  timeRanges.foldl
    (fun _ timeRange =>
      combineQuantityAndTimesResults (quantityQuery timeRange)
        (timesQuery timeRange) timeRange)
    []

/-- Quantity query for the C1 failing input: range 1 observed item 2 at
stage 1 with quantity 5; range 2 observed nothing. -/
def qQuery1 : TimeRange → List TotalQuantityResultForDropMatrix :=
  fun tr => if tr.rangeID = 1 then [⟨1, 2, 5⟩] else []

/-- Times query for the C1 failing input: range 1 had 10 reports at
stage 1; range 2 had none. -/
def tQuery1 : TimeRange → List TotalTimesResult :=
  fun tr => if tr.rangeID = 1 then [⟨1, 10⟩] else []

/-- C1 (counter-evaluation): the combined results passed to the grouping
step are those of the last range alone.  In general the loop's value is
the combiner applied to the final range; on the concrete two-range input,
range 1 produces a combined row, yet the loop's result is empty because
range 2 produced none — range 1's rows never reach the grouping step. -/
theorem calcCombinedResults_keeps_only_last_range :
    (∀ (q : TimeRange → List TotalQuantityResultForDropMatrix)
       (t : TimeRange → List TotalTimesResult)
       (trs : List TimeRange) (tr : TimeRange),
      calcCombinedResults q t (trs ++ [tr]) =
        combineQuantityAndTimesResults (q tr) (t tr) tr) ∧
    combineQuantityAndTimesResults (qQuery1 ⟨1, 0, 100⟩) (tQuery1 ⟨1, 0, 100⟩)
        ⟨1, 0, 100⟩ = [⟨1, 2, 5, 10, ⟨1, 0, 100⟩⟩] ∧
    calcCombinedResults qQuery1 tQuery1 [⟨1, 0, 100⟩, ⟨2, 100, 200⟩] = [] := by
  refine ⟨?_, by rfl, by rfl⟩
  intro q t trs tr
  unfold calcCombinedResults
  rw [List.foldl_append]
  rfl

/-! ### Recompute scheduler: `RefreshAllDropMatrixElements` -/

/-- The collected `toSave` batch of `RefreshAllDropMatrixElements`,
sequentialising the worker fan-out: each range's calculation delivers its
batch to the collector, which appends it; a worker that hits an error
abandons its batch and signals nothing (in the Go it returns before
sending on the channel — and before the collector can call `wg.Done` for
it). -/
def refreshCollectedElements
    (calcRange : TimeRange → Except String (List DropMatrixElement))
    (allTimeRanges : List TimeRange) : List DropMatrixElement :=
  allTimeRanges.foldl
    (fun toSave timeRange =>
      match calcRange timeRange with
      | .error _ => toSave
      | .ok currentBatch => toSave ++ currentBatch)
    []

/-- `RefreshAllDropMatrixElements(server)`: collect every range's batch
and hand the aggregate to `BatchSaveElements`.  Worker errors do not
reach the return value. -/
def RefreshAllDropMatrixElements
    (calcRange : TimeRange → Except String (List DropMatrixElement))
    (batchSave : List DropMatrixElement → Except String Unit)
    (allTimeRanges : List TimeRange) : Except String Unit :=
  batchSave (refreshCollectedElements calcRange allTimeRanges)

/-- Per-range calculation for the C4 failing input: range 1 fails with
"db down", every other range yields one element. -/
def calcFail1 : TimeRange → Except String (List DropMatrixElement) :=
  fun tr => if tr.rangeID = 1 then .error "db down"
            else .ok [⟨1, 2, tr.rangeID, 5, 10, "CN", none⟩]

/-- C4 (counter-evaluation): with range 1's calculation failing, the
refresh still returns success — the saved batch silently excludes range
1's contribution and the worker's error is never surfaced to the
caller. -/
theorem refresh_swallows_worker_error :
    calcFail1 ⟨1, 0, 100⟩ = .error "db down" ∧
    refreshCollectedElements calcFail1 [⟨1, 0, 100⟩, ⟨2, 100, 200⟩] =
      [⟨1, 2, 2, 5, 10, "CN", none⟩] ∧
    RefreshAllDropMatrixElements calcFail1 (fun _ => .ok ())
      [⟨1, 0, 100⟩, ⟨2, 100, 200⟩] = .ok () :=
  ⟨by rfl, by rfl, by rfl⟩

/-! ### Max-accumulable fold:
`convertDropMatrixElementsToMaxAccumulableDropMatrixQueryResult` -/

/-- The loop of the max-accumulable fold over one chain of time ranges
for a fixed `(stageId, itemId)`: `lookup` is `subMapByRangeId` (the
elements map restricted to the pair), `startTime` / `endTime` the
running extremes (seeded from the chain's first range), `combined` the
running combination.  A range whose id misses the map is skipped; a
matching element is wrapped as a `OneDropMatrixElement` (with a nil
range, as in the Go), the extremes are widened, and the element is
merged via `combineDropMatrixResults`, whose error would propagate. -/
def chainLoop (lookup : Int → Option DropMatrixElement) (stageId itemId : Int) :
    List TimeRange → Int → Int → Option OneDropMatrixElement →
    Except String (Int × Int × Option OneDropMatrixElement)
  | [], startTime, endTime, combined => .ok (startTime, endTime, combined)
  | timeRange :: rest, startTime, endTime, combined =>
    match lookup timeRange.rangeID with
    | none => chainLoop lookup stageId itemId rest startTime endTime combined
    | some element =>
      let oneElementResult : OneDropMatrixElement :=
        { stageID := stageId, itemID := itemId, quantity := element.quantity,
          times := element.times, timeRange := none }
      let startTime2 := if timeRange.startTime < startTime then timeRange.startTime
                        else startTime
      let endTime2 := if endTime < timeRange.endTime then timeRange.endTime
                      else endTime
      match combined with
      | none =>
        chainLoop lookup stageId itemId rest startTime2 endTime2 (some oneElementResult)
      | some c =>
        match combineDropMatrixResults c oneElementResult with
        | .error e => .error e
        | .ok c2 => chainLoop lookup stageId itemId rest startTime2 endTime2 (some c2)

/-- The per-`(stageId, itemId)` body of
`convertDropMatrixElementsToMaxAccumulableDropMatrixQueryResult`:
seed the extremes from `timeRanges[0]` (the Go indexes it
unconditionally; chains are never empty, and the empty case here returns
`none`), run the loop over the whole chain, and attach the final
`TimeRange{StartTime, EndTime}` (range id left at its zero value) to the
combined element, if any. -/
def accumulateOneChain (lookup : Int → Option DropMatrixElement)
    (stageId itemId : Int) (timeRanges : List TimeRange) :
    Except String (Option OneDropMatrixElement) :=
  match timeRanges with
  | [] => .ok none
  | t0 :: _ =>
    match chainLoop lookup stageId itemId timeRanges t0.startTime t0.endTime none with
    | .error e => .error e
    | .ok (startTime, endTime, combined) =>
      .ok (combined.map (fun c =>
        { c with timeRange := some ⟨0, startTime, endTime⟩ }))

/-- One entry of the max-accumulable ranges map applied to the elements
map (`utils.GetDropMatrixElementsMap`, absent from the sources, keys the
elements by stage, item and range id; it enters as the `elementsMap`
lookup). -/
def convertStep (elementsMap : Int → Int → Int → Option DropMatrixElement)
    (c : Int × Int × List TimeRange) : Except String (Option OneDropMatrixElement) :=
  accumulateOneChain (fun rangeId => elementsMap c.1 c.2.1 rangeId) c.1 c.2.1 c.2.2

/-- `convertDropMatrixElementsToMaxAccumulableDropMatrixQueryResult`:
iterate the `(stage, item, chain)` entries of the max-accumulable map
(map iteration order stands in as the list order), dropping chains with
no combined element and appending the others to the result matrix; an
error from the fold aborts the conversion. -/
def convertDropMatrixElementsToMaxAccumulableDropMatrixQueryResult
    (elementsMap : Int → Int → Int → Option DropMatrixElement) :
    List (Int × Int × List TimeRange) → Except String (List OneDropMatrixElement)
  | [] => .ok []
  | c :: rest =>
    match convertStep elementsMap c with
    | .error e => .error e
    | .ok none =>
      convertDropMatrixElementsToMaxAccumulableDropMatrixQueryResult elementsMap rest
    | .ok (some el) =>
      match convertDropMatrixElementsToMaxAccumulableDropMatrixQueryResult
          elementsMap rest with
      | .error e => .error e
      | .ok out => .ok (el :: out)

/-- The chain's matching ranges with their elements, in chain order. -/
def chainHits (lookup : Int → Option DropMatrixElement) (trs : List TimeRange) :
    List (TimeRange × DropMatrixElement) :=
  trs.filterMap (fun tr => (lookup tr.rangeID).map (fun el => (tr, el)))

/-- The loop's conditional update of the running start is `min`. -/
theorem if_lt_eq_min (s x : Int) : (if x < s then x else s) = min s x := by
  omega

/-- The loop's conditional update of the running end is `max`. -/
theorem if_lt_eq_max (e x : Int) : (if e < x then x else e) = max e x := by
  omega

/-- `chainLoop` with a running combination: it adds the hits' quantities
and times and folds `min` / `max` over the hits' bounds. -/
theorem chainLoop_some_spec (lookup : Int → Option DropMatrixElement)
    (stageId itemId : Int) :
    ∀ (trs : List TimeRange) (s e q t : Int),
      chainLoop lookup stageId itemId trs s e (some ⟨stageId, itemId, q, t, none⟩) =
        .ok (((chainHits lookup trs).map (fun p => p.1.startTime)).foldl min s,
             ((chainHits lookup trs).map (fun p => p.1.endTime)).foldl max e,
             some ⟨stageId, itemId,
                   q + ((chainHits lookup trs).map (fun p => p.2.quantity)).sum,
                   t + ((chainHits lookup trs).map (fun p => p.2.times)).sum,
                   none⟩) := by
  intro trs
  induction trs with
  | nil =>
    intro s e q t
    simp [chainLoop, chainHits]
  | cons tr rest ih =>
    intro s e q t
    simp only [chainLoop]
    cases hlk : lookup tr.rangeID with
    | none =>
      simp only [hlk]
      rw [ih]
      simp [chainHits, hlk]
    | some element =>
      simp only [hlk]
      have hcomb : combineDropMatrixResults ⟨stageId, itemId, q, t, none⟩
          ⟨stageId, itemId, element.quantity, element.times, none⟩ =
          .ok ⟨stageId, itemId, q + element.quantity, t + element.times, none⟩ := by
        simp [combineDropMatrixResults]
      simp only [hcomb]
      rw [ih]
      simp [chainHits, hlk, if_lt_eq_min, if_lt_eq_max, add_assoc]

/-- `chainLoop` from the initial `nil` combination: no hit leaves the
combination empty; otherwise the result carries the exact sums, with the
extremes folded from the seeds in both cases. -/
theorem chainLoop_none_spec (lookup : Int → Option DropMatrixElement)
    (stageId itemId : Int) :
    ∀ (trs : List TimeRange) (s e : Int),
      chainLoop lookup stageId itemId trs s e none =
        .ok (((chainHits lookup trs).map (fun p => p.1.startTime)).foldl min s,
             ((chainHits lookup trs).map (fun p => p.1.endTime)).foldl max e,
             if chainHits lookup trs = [] then none
             else some ⟨stageId, itemId,
                        ((chainHits lookup trs).map (fun p => p.2.quantity)).sum,
                        ((chainHits lookup trs).map (fun p => p.2.times)).sum,
                        none⟩) := by
  intro trs
  induction trs with
  | nil =>
    intro s e
    simp [chainLoop, chainHits]
  | cons tr rest ih =>
    intro s e
    simp only [chainLoop]
    cases hlk : lookup tr.rangeID with
    | none =>
      simp only [hlk]
      rw [ih]
      simp [chainHits, hlk]
    | some element =>
      simp only [hlk]
      rw [chainLoop_some_spec]
      simp [chainHits, hlk, if_lt_eq_min, if_lt_eq_max]

/-- The accumulate of a non-empty chain in closed form: no hit yields
`none`; otherwise the exact sums of the hits' quantities and times, and
the extremes folded from the first range's bounds over the hit ranges'
bounds. -/
theorem accumulateOneChain_spec (lookup : Int → Option DropMatrixElement)
    (stageId itemId : Int) (t0 : TimeRange) (rest : List TimeRange) :
    accumulateOneChain lookup stageId itemId (t0 :: rest) =
      .ok (if chainHits lookup (t0 :: rest) = [] then none
           else some { stageID := stageId, itemID := itemId,
                       quantity := ((chainHits lookup (t0 :: rest)).map
                                     (fun p => p.2.quantity)).sum,
                       times := ((chainHits lookup (t0 :: rest)).map
                                  (fun p => p.2.times)).sum,
                       timeRange := some ⟨0,
                         ((chainHits lookup (t0 :: rest)).map
                           (fun p => p.1.startTime)).foldl min t0.startTime,
                         ((chainHits lookup (t0 :: rest)).map
                           (fun p => p.1.endTime)).foldl max t0.endTime⟩ }) := by
  simp only [accumulateOneChain]
  rw [chainLoop_none_spec]
  by_cases h : chainHits lookup (t0 :: rest) = []
  · simp [h]
  · simp [h]

/-- A combined element always carries the chain's stage and item ids. -/
theorem accumulateOneChain_ok_some_fields (lookup : Int → Option DropMatrixElement)
    (stageId itemId : Int) (trs : List TimeRange) (el : OneDropMatrixElement)
    (h : accumulateOneChain lookup stageId itemId trs = .ok (some el)) :
    el.stageID = stageId ∧ el.itemID = itemId := by
  cases trs with
  | nil =>
    simp only [accumulateOneChain] at h
    injection h with h
    exact Option.noConfusion h
  | cons t0 rest =>
    rw [accumulateOneChain_spec] at h
    by_cases hh : chainHits lookup (t0 :: rest) = []
    · rw [if_pos hh] at h
      injection h with h
      exact Option.noConfusion h
    · rw [if_neg hh] at h
      injection h with h
      injection h with h
      subst h
      exact ⟨rfl, rfl⟩

/-- The error-free projection of `convertStep`. -/
def convertStepElement (elementsMap : Int → Int → Int → Option DropMatrixElement)
    (c : Int × Int × List TimeRange) : Option OneDropMatrixElement :=
  match convertStep elementsMap c with
  | .ok (some el) => some el
  | _ => none

/-- A successful conversion is the per-chain projection of the chain
list. -/
theorem convert_ok_filterMap (elementsMap : Int → Int → Int → Option DropMatrixElement) :
    ∀ (chains : List (Int × Int × List TimeRange)) (out : List OneDropMatrixElement),
      convertDropMatrixElementsToMaxAccumulableDropMatrixQueryResult elementsMap
        chains = .ok out →
      out = chains.filterMap (convertStepElement elementsMap) := by
  intro chains
  induction chains with
  | nil =>
    intro out h
    simp only [convertDropMatrixElementsToMaxAccumulableDropMatrixQueryResult] at h
    injection h with h
    simp [h.symm]
  | cons c cs ih =>
    intro out h
    simp only [convertDropMatrixElementsToMaxAccumulableDropMatrixQueryResult] at h
    simp only [List.filterMap_cons, convertStepElement]
    cases hstep : convertStep elementsMap c with
    | error e =>
      simp only [hstep] at h
      exact Except.noConfusion h
    | ok o =>
      cases o with
      | none =>
        simp only [hstep] at h ⊢
        exact ih out h
      | some el =>
        simp only [hstep] at h ⊢
        cases hrest : convertDropMatrixElementsToMaxAccumulableDropMatrixQueryResult
            elementsMap cs with
        | error e =>
          simp only [hrest] at h
          exact Except.noConfusion h
        | ok out2 =>
          simp only [hrest] at h
          injection h with h
          subst h
          simp [ih out2 hrest, convertStepElement]

/-- A projected element carries its chain's stage and item ids. -/
theorem convertStepElement_fields (elementsMap : Int → Int → Int → Option DropMatrixElement)
    (c : Int × Int × List TimeRange) (el : OneDropMatrixElement)
    (h : convertStepElement elementsMap c = some el) :
    el.stageID = c.1 ∧ el.itemID = c.2.1 := by
  unfold convertStepElement at h
  cases hstep : convertStep elementsMap c with
  | error e => rw [hstep] at h; exact Option.noConfusion h
  | ok o =>
    cases o with
    | none => rw [hstep] at h; exact Option.noConfusion h
    | some x =>
      rw [hstep] at h
      injection h with h
      subst h
      exact accumulateOneChain_ok_some_fields _ c.1 c.2.1 c.2.2 x hstep

/-- No chain with key `(s, i)` means no output element with that key. -/
theorem filterMap_convertStep_no_key
    (elementsMap : Int → Int → Int → Option DropMatrixElement) (s i : Int) :
    ∀ chains : List (Int × Int × List TimeRange),
      (s, i) ∉ chains.map (fun c => (c.1, c.2.1)) →
      (chains.filterMap (convertStepElement elementsMap)).filter
        (fun el => el.stageID = s ∧ el.itemID = i) = [] := by
  intro chains
  induction chains with
  | nil => intro _; rfl
  | cons c cs ih =>
    intro h
    simp only [List.map_cons, List.mem_cons, not_or] at h
    obtain ⟨h1, h2⟩ := h
    simp only [List.filterMap_cons]
    cases hstep : convertStepElement elementsMap c with
    | none => exact ih h2
    | some el =>
      have hf := convertStepElement_fields elementsMap c el hstep
      have hne : ¬ (el.stageID = s ∧ el.itemID = i) := by
        intro he
        exact h1 (by rw [← he.1.symm.trans hf.1, ← he.2.symm.trans hf.2])
      simp only [List.filter_cons]
      simp only [hne, decide_False]
      exact ih h2

/-- With chain keys distinct, the output elements keyed `(s, i)` are
exactly the projection of the unique chain listed under that key. -/
theorem filterMap_convertStep_key
    (elementsMap : Int → Int → Int → Option DropMatrixElement)
    (s i : Int) (trs : List TimeRange) :
    ∀ chains : List (Int × Int × List TimeRange),
      (s, i, trs) ∈ chains →
      (chains.map (fun c => (c.1, c.2.1))).Nodup →
      (chains.filterMap (convertStepElement elementsMap)).filter
        (fun el => el.stageID = s ∧ el.itemID = i) =
        (convertStepElement elementsMap (s, i, trs)).toList := by
  intro chains
  induction chains with
  | nil => intro hmem _; exact absurd hmem (List.not_mem_nil _)
  | cons c cs ih =>
    intro hmem hnd
    simp only [List.map_cons, List.nodup_cons] at hnd
    obtain ⟨hnotin, hnd2⟩ := hnd
    rcases List.mem_cons.mp hmem with rfl | hmem2
    · have hnotin2 : (s, i) ∉ cs.map (fun c => (c.1, c.2.1)) := hnotin
      simp only [List.filterMap_cons]
      cases hstep : convertStepElement elementsMap (s, i, trs) with
      | none =>
        rw [filterMap_convertStep_no_key elementsMap s i cs hnotin2]
        simp
      | some el =>
        have hf := convertStepElement_fields elementsMap (s, i, trs) el hstep
        simp only [List.filter_cons]
        simp only [hf.1, hf.2, and_self, decide_True]
        rw [filterMap_convertStep_no_key elementsMap s i cs hnotin2]
        simp
    · have hck : ¬ ((c.1, c.2.1) = (s, i)) := by
        intro he
        exact hnotin (he ▸ List.mem_map.mpr ⟨(s, i, trs), hmem2, rfl⟩)
      simp only [List.filterMap_cons]
      cases hstep : convertStepElement elementsMap c with
      | none => exact ih hmem2 hnd2
      | some el =>
        have hf := convertStepElement_fields elementsMap c el hstep
        have hne : ¬ (el.stageID = s ∧ el.itemID = i) := by
          intro he
          exact hck (by rw [← he.1.symm.trans hf.1, ← he.2.symm.trans hf.2])
        simp only [List.filter_cons]
        simp only [hne, decide_False]
        exact ih hmem2 hnd2

/-- C2 (amended): on a successful conversion whose chain keys are
distinct, (a) at most one matrix element is produced per `(stage, item)`;
(b) a chain with no matching element produces nothing; (c) a chain with
matches produces exactly one element whose quantity and times are the
exact sums over the matching elements, and whose range runs from the
minimum of the chain's FIRST range's start and the matching ranges'
starts to the maximum of the first range's end and the matching ranges'
ends (the extremes are seeded from the first range whether or not it
matched). -/
theorem maxAccumulable_fold_spec
    (elementsMap : Int → Int → Int → Option DropMatrixElement)
    (chains : List (Int × Int × List TimeRange))
    (out : List OneDropMatrixElement)
    (h : convertDropMatrixElementsToMaxAccumulableDropMatrixQueryResult elementsMap
          chains = .ok out)
    (hkeys : (chains.map (fun c => (c.1, c.2.1))).Nodup) :
    (∀ s i : Int,
      (out.filter (fun el => el.stageID = s ∧ el.itemID = i)).length ≤ 1) ∧
    (∀ (s i : Int) (t0 : TimeRange) (rest : List TimeRange),
      (s, i, t0 :: rest) ∈ chains →
      (chainHits (fun rangeId => elementsMap s i rangeId) (t0 :: rest) = [] →
        out.filter (fun el => el.stageID = s ∧ el.itemID = i) = []) ∧
      (¬ chainHits (fun rangeId => elementsMap s i rangeId) (t0 :: rest) = [] →
        out.filter (fun el => el.stageID = s ∧ el.itemID = i) =
          [{ stageID := s, itemID := i,
             quantity := ((chainHits (fun rangeId => elementsMap s i rangeId)
                            (t0 :: rest)).map (fun p => p.2.quantity)).sum,
             times := ((chainHits (fun rangeId => elementsMap s i rangeId)
                         (t0 :: rest)).map (fun p => p.2.times)).sum,
             timeRange := some ⟨0,
               ((chainHits (fun rangeId => elementsMap s i rangeId)
                  (t0 :: rest)).map (fun p => p.1.startTime)).foldl min t0.startTime,
               ((chainHits (fun rangeId => elementsMap s i rangeId)
                  (t0 :: rest)).map (fun p => p.1.endTime)).foldl max t0.endTime⟩ }])) := by
  have hout := convert_ok_filterMap elementsMap chains out h
  subst hout
  constructor
  · intro s i
    by_cases hk : (s, i) ∈ chains.map (fun c => (c.1, c.2.1))
    · obtain ⟨c, hc, hkey⟩ := List.mem_map.mp hk
      have hc2 : (s, i, c.2.2) ∈ chains := by
        have : c = (s, i, c.2.2) := by
          obtain ⟨c1, c2, c3⟩ := c
          simp only [Prod.mk.injEq] at hkey
          simp [hkey.1, hkey.2]
        exact this ▸ hc
      rw [filterMap_convertStep_key elementsMap s i c.2.2 chains hc2 hkeys]
      cases convertStepElement elementsMap (s, i, c.2.2) <;> simp
    · rw [filterMap_convertStep_no_key elementsMap s i chains hk]
      simp
  · intro s i t0 rest hmem
    have hfilter := filterMap_convertStep_key elementsMap s i (t0 :: rest) chains hmem hkeys
    have hstepval : convertStepElement elementsMap (s, i, t0 :: rest) =
        if chainHits (fun rangeId => elementsMap s i rangeId) (t0 :: rest) = [] then none
        else some { stageID := s, itemID := i,
                    quantity := ((chainHits (fun rangeId => elementsMap s i rangeId)
                                   (t0 :: rest)).map (fun p => p.2.quantity)).sum,
                    times := ((chainHits (fun rangeId => elementsMap s i rangeId)
                                (t0 :: rest)).map (fun p => p.2.times)).sum,
                    timeRange := some ⟨0,
                      ((chainHits (fun rangeId => elementsMap s i rangeId)
                         (t0 :: rest)).map (fun p => p.1.startTime)).foldl min t0.startTime,
                      ((chainHits (fun rangeId => elementsMap s i rangeId)
                         (t0 :: rest)).map (fun p => p.1.endTime)).foldl max t0.endTime⟩ } := by
      unfold convertStepElement convertStep
      rw [accumulateOneChain_spec]
      by_cases hh : chainHits (fun rangeId => elementsMap s i rangeId) (t0 :: rest) = []
      · rw [if_pos hh]
      · rw [if_neg hh]
    constructor
    · intro hh
      rw [hfilter, hstepval, if_pos hh]
      rfl
    · intro hh
      rw [hfilter, hstepval, if_neg hh]
      rfl

/-- Elements map for the C2 inputs: only `(stage 1, item 1, range 2)`
has an element, with quantity 5 and times 7. -/
def elementsMapC2 : Int → Int → Int → Option DropMatrixElement :=
  fun stageId itemId rangeId =>
    if stageId = 1 ∧ itemId = 1 ∧ rangeId = 2 then some ⟨1, 1, 2, 5, 7, "CN", none⟩
    else none

/-- C2 counterexample: over the chain `[range 1 = [0,100], range 2 =
[10,50]]` where only range 2 has a matching element, the matching
ranges' minimal start is 10 and maximal end is 50, yet the produced
element's range is `[0,100]` — the extremes were seeded from the chain's
first range although it matched nothing. -/
theorem maxAccumulable_extremes_seeded_from_first_range :
    accumulateOneChain (fun rangeId => elementsMapC2 1 1 rangeId) 1 1
      [⟨1, 0, 100⟩, ⟨2, 10, 50⟩] =
      .ok (some ⟨1, 1, 5, 7, some ⟨0, 0, 100⟩⟩) ∧
    chainHits (fun rangeId => elementsMapC2 1 1 rangeId) [⟨1, 0, 100⟩, ⟨2, 10, 50⟩] =
      [(⟨2, 10, 50⟩, ⟨1, 1, 2, 5, 7, "CN", none⟩)] ∧
    ¬ ((some (⟨0, 0, 100⟩ : TimeRange) : Option TimeRange) = some ⟨0, 10, 50⟩) :=
  ⟨by rfl, by rfl, by decide⟩

/-- Witness for `maxAccumulable_fold_spec` on a one-chain input. -/
theorem maxAccumulable_fold_spec_witness :
    ([(⟨1, 1, 5, 7, some ⟨0, 0, 100⟩⟩ : OneDropMatrixElement)].filter
      (fun el => el.stageID = 1 ∧ el.itemID = 1)).length ≤ 1 :=
  (maxAccumulable_fold_spec elementsMapC2 [(1, 1, [⟨1, 0, 100⟩, ⟨2, 10, 50⟩])]
      [⟨1, 1, 5, 7, some ⟨0, 0, 100⟩⟩] (by rfl) (by simp)).1 1 1

/-! ### Drop-matrix calculator: grouping and zero-fill
(`calcDropMatrixForTimeRanges`, lines after the combine loop) -/

/-- Write to the `stageTimesMap` Go map (newest binding first). -/
def stmSet (stm : List (Int × Int)) (k v : Int) : List (Int × Int) :=
  (k, v) :: stm

/-- Read the `stageTimesMap`; a missing key yields Go's zero value. -/
def stmGet (stm : List (Int × Int)) (k : Int) : Int :=
  ((stm.find? (fun p => p.1 = k)).map (fun p => p.2)).getD 0

/-- The `dropMatrixElement` literal of the `el3` loop: one element per
combined result; ad-hoc (`rangeId = 0`) elements embed the range
descriptor. -/
def observedElement (server : String) (stageId rangeId : Int)
    (timeRange : TimeRange) (el3 : CombinedResultForDropMatrix) : DropMatrixElement :=
  { stageID := stageId, itemID := el3.itemID, rangeID := rangeId,
    quantity := el3.quantity, times := el3.times, server := server,
    timeRange := if rangeId = 0 then some timeRange else none }

/-- The `dropMatrixElementWithZeroQuantity` literal of the zero-fill
loop: quantity 0, times read from `stageTimesMap`. -/
def zeroElement (server : String) (stageId rangeId : Int)
    (timeRange : TimeRange) (times itemId : Int) : DropMatrixElement :=
  { stageID := stageId, itemID := itemId, rangeID := rangeId, quantity := 0,
    times := times, server := server,
    timeRange := if rangeId = 0 then some timeRange else none }

/-- The `el3` loop over one `(stage, rangeId)` group: emit one
`DropMatrixElement` per combined result (ad-hoc ranges embed the range
descriptor) and record the stage's times into `stageTimesMap`. -/
def emitGroupElements (server : String) (stageId rangeId : Int)
    (timeRange : TimeRange) (stm : List (Int × Int)) :
    List CombinedResultForDropMatrix → List (Int × Int) × List DropMatrixElement
  | [] => (stm, [])
  | el3 :: rest =>
    let e := observedElement server stageId rangeId timeRange el3
    let stm2 := stmSet stm stageId el3.times
    let r := emitGroupElements server stageId rangeId timeRange stm2 rest
    (r.1, e :: r.2)

/-- The expected drop set of a `(stage, rangeId)` group: for an ad-hoc
range, the non-null item ids of the drop infos active in the inline
range (the Go queries `GetDropInfosWithFilters` for it); otherwise
`GetItemDropSetByStageIdAndRangeId` (whose error the Go discards);
intersected with the item filter when one is given. -/
def expectedDropItemIds (dropInfosForRange : TimeRange → List DropInfo)
    (itemDropSet : Int → Int → List Int) (itemIdFilter : List Int)
    (stageId rangeId : Int) (timeRange : TimeRange) : List Int :=
  let dropItemIds0 :=
    if rangeId = 0 then
      ((dropInfosForRange timeRange).filter (fun d => d.itemID.isSome)).filterMap
        (fun d => d.itemID)
    else itemDropSet stageId rangeId
  if ¬ itemIdFilter = [] then dropItemIds0.filter (fun itemId => itemId ∈ itemIdFilter)
  else dropItemIds0

/-- One `(stage, rangeId)` group body: emit the combined results, then a
zero-quantity element (carrying `stageTimesMap[stageId]`) for every
expected item not seen in the group (the `dropSet` hash set iterated in
first-occurrence order). -/
def processGroup (server : String) (dropInfosForRange : TimeRange → List DropInfo)
    (itemDropSet : Int → Int → List Int) (itemIdFilter : List Int)
    (stageId rangeId : Int) (timeRange : TimeRange)
    (group2 : List CombinedResultForDropMatrix) (stm : List (Int × Int)) :
    List (Int × Int) × List DropMatrixElement :=
  let dropItemIds :=
    expectedDropItemIds dropInfosForRange itemDropSet itemIdFilter stageId rangeId timeRange
  let r := emitGroupElements server stageId rangeId timeRange stm group2
  let residual := (firstOccurrences dropItemIds).filter
    (fun itemId => ¬ group2.any (fun el3 => el3.itemID = itemId))
  (r.1, r.2 ++ residual.map
    (zeroElement server stageId rangeId timeRange (stmGet r.1 stageId)))

/-- The loop over one stage's `(rangeId, group)` subgroups, in group
order, threading `stageTimesMap`; each group's range descriptor is its
first member's (`el2.Group[0].TimeRange`). -/
def processRangeGroups (server : String) (dropInfosForRange : TimeRange → List DropInfo)
    (itemDropSet : Int → Int → List Int) (itemIdFilter : List Int)
    (stageId : Int) (stm : List (Int × Int)) :
    List (Int × List CombinedResultForDropMatrix) →
      List (Int × Int) × List DropMatrixElement
  | [] => (stm, [])
  | (rangeId, group2) :: rest =>
    let timeRange := ((group2.head?).map (fun el => el.timeRange)).getD ⟨0, 0, 0⟩
    let r := processGroup server dropInfosForRange itemDropSet itemIdFilter
      stageId rangeId timeRange group2 stm
    let r2 := processRangeGroups server dropInfosForRange itemDropSet itemIdFilter
      stageId r.1 rest
    (r2.1, r.2 ++ r2.2)

/-- The outer loop over the `(stageId, group)` groups, threading
`stageTimesMap` and appending every group's elements. -/
def processStageGroups (server : String) (dropInfosForRange : TimeRange → List DropInfo)
    (itemDropSet : Int → Int → List Int) (itemIdFilter : List Int)
    (stm : List (Int × Int)) :
    List (Int × List CombinedResultForDropMatrix) →
      List (Int × Int) × List DropMatrixElement
  | [] => (stm, [])
  | (stageId, grp) :: rest =>
    let r := processRangeGroups server dropInfosForRange itemDropSet itemIdFilter
      stageId stm (groupPairsBy (fun el => el.timeRange.rangeID) grp)
    let r2 := processStageGroups server dropInfosForRange itemDropSet itemIdFilter
      r.1 rest
    (r2.1, r.2 ++ r2.2)

/-- The element-building half of `calcDropMatrixForTimeRanges`: group the
combined results by stage, then by range id, and run the emission and
zero-fill loops. -/
def buildDropMatrixElements (server : String)
    (dropInfosForRange : TimeRange → List DropInfo)
    (itemDropSet : Int → Int → List Int) (itemIdFilter : List Int)
    (combinedResults : List CombinedResultForDropMatrix) : List DropMatrixElement :=
  (processStageGroups server dropInfosForRange itemDropSet itemIdFilter []
    (groupPairsBy (fun el => el.stageID) combinedResults)).2

/-- `calcDropMatrixForTimeRanges`: the per-range combine loop (which
keeps only the last range's rows) followed by grouping, emission and
zero-fill. -/
def calcDropMatrixForTimeRanges (server : String)
    (quantityQuery : TimeRange → List TotalQuantityResultForDropMatrix)
    (timesQuery : TimeRange → List TotalTimesResult)
    (dropInfosForRange : TimeRange → List DropInfo)
    (itemDropSet : Int → Int → List Int) (itemIdFilter : List Int)
    (timeRanges : List TimeRange) : List DropMatrixElement :=
  buildDropMatrixElements server dropInfosForRange itemDropSet itemIdFilter
    (calcCombinedResults quantityQuery timesQuery timeRanges)

/-- `firstOccurrences` loses no member. -/
theorem mem_firstOccurrences (x : Int) : ∀ l : List Int,
    x ∈ firstOccurrences l ↔ x ∈ l := by
  intro l
  induction l with
  | nil => simp [firstOccurrences]
  | cons k ks ih =>
    simp only [firstOccurrences, List.mem_cons]
    constructor
    · rintro (rfl | hx)
      · exact Or.inl rfl
      · exact Or.inr (ih.mp (List.mem_of_mem_filter hx))
    · rintro (rfl | hx)
      · exact Or.inl rfl
      · by_cases hxk : x = k
        · exact Or.inl hxk
        · refine Or.inr (List.mem_filter.mpr ⟨ih.mpr hx, ?_⟩)
          simp [hxk]

/-- `firstOccurrences` yields distinct values. -/
theorem nodup_firstOccurrences : ∀ l : List Int, (firstOccurrences l).Nodup := by
  intro l
  induction l with
  | nil => simp [firstOccurrences]
  | cons k ks ih =>
    simp only [firstOccurrences]
    rw [List.nodup_cons]
    refine ⟨?_, ih.filter _⟩
    intro hk
    have := (List.mem_filter.mp hk).2
    simp at this

/-- Keys of `groupPairsBy` are distinct. -/
theorem groupPairsBy_keys_nodup (f : α → Int) (xs : List α) :
    ((groupPairsBy f xs).map Prod.fst).Nodup := by
  unfold groupPairsBy
  rw [List.map_map]
  have hcomp : (Prod.fst ∘ fun k => (k, xs.filter (fun x => f x = k))) =
      fun k : Int => k := rfl
  rw [hcomp]
  simpa using nodup_firstOccurrences (xs.map f)

/-- Each `groupPairsBy` group is the filter at its key, and is
non-empty. -/
theorem groupPairsBy_mem (f : α → Int) (xs : List α) (k : Int) (g : List α)
    (h : (k, g) ∈ groupPairsBy f xs) :
    g = xs.filter (fun x => f x = k) ∧ ¬ g = [] := by
  unfold groupPairsBy at h
  obtain ⟨k2, hk2, heq⟩ := List.mem_map.mp h
  have hk : k2 = k := congrArg Prod.fst heq
  subst hk
  have hg : g = xs.filter (fun x => f x = k2) := (congrArg Prod.snd heq).symm
  refine ⟨hg, ?_⟩
  have hk3 := (mem_firstOccurrences k2 (xs.map f)).mp hk2
  obtain ⟨x, hx, hfx⟩ := List.mem_map.mp hk3
  intro hnil
  have hmem : x ∈ xs.filter (fun x => f x = k2) :=
    List.mem_filter.mpr ⟨hx, by simp [hfx]⟩
  rw [← hg, hnil] at hmem
  exact List.not_mem_nil x hmem

/-- Every member's key names a group of `groupPairsBy`. -/
theorem groupPairsBy_mem_of_mem (f : α → Int) (xs : List α) (x : α) (hx : x ∈ xs) :
    (f x, xs.filter (fun y => f y = f x)) ∈ groupPairsBy f xs := by
  unfold groupPairsBy
  exact List.mem_map.mpr
    ⟨f x, (mem_firstOccurrences _ _).mpr (List.mem_map.mpr ⟨x, hx, rfl⟩), rfl⟩

/-- The emission loop's elements, in group order. -/
theorem emitGroupElements_out (server : String) (stageId rangeId : Int)
    (timeRange : TimeRange) :
    ∀ (g : List CombinedResultForDropMatrix) (stm : List (Int × Int)),
      (emitGroupElements server stageId rangeId timeRange stm g).2 =
        g.map (observedElement server stageId rangeId timeRange) := by
  intro g
  induction g with
  | nil => intro stm; rfl
  | cons el3 rest ih =>
    intro stm
    simp only [emitGroupElements, List.map_cons]
    rw [ih]

/-- The group's stage-times value once its elements have been emitted:
the last member's times. -/
def lastTimes (g : List CombinedResultForDropMatrix) : Int :=
  ((g.getLast?).map (fun el3 => el3.times)).getD 0

/-- After the emission loop, `stageTimesMap[stageId]` holds the last
member's times, whatever the incoming map held. -/
theorem emitGroupElements_stm (server : String) (stageId rangeId : Int)
    (timeRange : TimeRange) :
    ∀ (g : List CombinedResultForDropMatrix) (stm : List (Int × Int)), ¬ g = [] →
      stmGet (emitGroupElements server stageId rangeId timeRange stm g).1 stageId =
        lastTimes g := by
  intro g
  induction g with
  | nil => intro stm h; exact absurd rfl h
  | cons el3 rest ih =>
    intro stm _
    cases rest with
    | nil => simp [emitGroupElements, stmGet, stmSet, lastTimes]
    | cons y ys =>
      have step := ih (stmSet stm stageId el3.times) (by simp)
      simp only [emitGroupElements] at step ⊢
      rw [step]
      simp [lastTimes, List.getLast?_cons_cons]

/-- Closed form of one group's output: the emitted elements followed by
zero-quantity elements for the residual expected items, whose times is
the group's last member's (independent of the incoming
`stageTimesMap`). -/
theorem processGroup_out (server : String)
    (dropInfosForRange : TimeRange → List DropInfo)
    (itemDropSet : Int → Int → List Int) (itemIdFilter : List Int)
    (stageId rangeId : Int) (timeRange : TimeRange)
    (group2 : List CombinedResultForDropMatrix) (stm : List (Int × Int))
    (h : ¬ group2 = []) :
    (processGroup server dropInfosForRange itemDropSet itemIdFilter stageId rangeId
      timeRange group2 stm).2 =
      group2.map (observedElement server stageId rangeId timeRange) ++
      ((firstOccurrences (expectedDropItemIds dropInfosForRange itemDropSet
          itemIdFilter stageId rangeId timeRange)).filter
        (fun itemId => ¬ group2.any (fun el3 => el3.itemID = itemId))).map
        (zeroElement server stageId rangeId timeRange (lastTimes group2)) := by
  simp only [processGroup]
  rw [emitGroupElements_out, emitGroupElements_stm server stageId rangeId timeRange
    group2 stm h]

/-- One `(rangeId, group)` entry's elements computed from an empty
`stageTimesMap` (legitimate: a non-empty group's output does not depend
on the incoming map). -/
def groupMatrixOut (server : String) (dropInfosForRange : TimeRange → List DropInfo)
    (itemDropSet : Int → Int → List Int) (itemIdFilter : List Int) (stageId : Int)
    (p : Int × List CombinedResultForDropMatrix) : List DropMatrixElement :=
  (processGroup server dropInfosForRange itemDropSet itemIdFilter stageId p.1
    (((p.2.head?).map (fun el => el.timeRange)).getD ⟨0, 0, 0⟩) p.2 []).2

/-- The range-group loop emits each group's elements in order; with all
groups non-empty the threaded `stageTimesMap` is immaterial. -/
theorem processRangeGroups_out (server : String)
    (dropInfosForRange : TimeRange → List DropInfo)
    (itemDropSet : Int → Int → List Int) (itemIdFilter : List Int) (stageId : Int) :
    ∀ (rgs : List (Int × List CombinedResultForDropMatrix)) (stm : List (Int × Int)),
      (∀ p ∈ rgs, ¬ p.2 = []) →
      (processRangeGroups server dropInfosForRange itemDropSet itemIdFilter stageId
        stm rgs).2 =
        (rgs.map (groupMatrixOut server dropInfosForRange itemDropSet itemIdFilter
          stageId)).flatten := by
  intro rgs
  induction rgs with
  | nil => intro stm _; rfl
  | cons p rest ih =>
    intro stm hne
    obtain ⟨rangeId, group2⟩ := p
    have hg : ¬ group2 = [] := hne (rangeId, group2) (List.mem_cons_self _ _)
    simp only [processRangeGroups, List.map_cons, List.flatten_cons]
    rw [ih _ (fun q hq => hne q (List.mem_cons_of_mem _ hq))]
    have hout : (processGroup server dropInfosForRange itemDropSet itemIdFilter
        stageId rangeId
        (((group2.head?).map (fun el => el.timeRange)).getD ⟨0, 0, 0⟩) group2 stm).2 =
        groupMatrixOut server dropInfosForRange itemDropSet itemIdFilter stageId
          (rangeId, group2) := by
      unfold groupMatrixOut
      rw [processGroup_out server dropInfosForRange itemDropSet itemIdFilter stageId
            rangeId _ group2 stm hg,
          processGroup_out server dropInfosForRange itemDropSet itemIdFilter stageId
            rangeId _ group2 [] hg]
    rw [hout]

/-- One stage group's elements: its range subgroups' outputs
concatenated. -/
def stageMatrixOut (server : String) (dropInfosForRange : TimeRange → List DropInfo)
    (itemDropSet : Int → Int → List Int) (itemIdFilter : List Int)
    (p : Int × List CombinedResultForDropMatrix) : List DropMatrixElement :=
  ((groupPairsBy (fun el => el.timeRange.rangeID) p.2).map
    (groupMatrixOut server dropInfosForRange itemDropSet itemIdFilter p.1)).flatten

/-- The stage-group loop emits each stage's elements in order. -/
theorem processStageGroups_out (server : String)
    (dropInfosForRange : TimeRange → List DropInfo)
    (itemDropSet : Int → Int → List Int) (itemIdFilter : List Int) :
    ∀ (sgs : List (Int × List CombinedResultForDropMatrix)) (stm : List (Int × Int)),
      (processStageGroups server dropInfosForRange itemDropSet itemIdFilter
        stm sgs).2 =
        (sgs.map (stageMatrixOut server dropInfosForRange itemDropSet
          itemIdFilter)).flatten := by
  intro sgs
  induction sgs with
  | nil => intro stm; rfl
  | cons p rest ih =>
    intro stm
    obtain ⟨stageId, grp⟩ := p
    simp only [processStageGroups, List.map_cons, List.flatten_cons]
    rw [ih, processRangeGroups_out server dropInfosForRange itemDropSet itemIdFilter
      stageId _ stm
      (fun q hq => (groupPairsBy_mem (fun el => el.timeRange.rangeID) grp q.1 q.2 hq).2)]
    rfl

/-- Every element of a group's output carries the group's stage and
range ids. -/
theorem groupMatrixOut_keys (server : String)
    (dropInfosForRange : TimeRange → List DropInfo)
    (itemDropSet : Int → Int → List Int) (itemIdFilter : List Int) (stageId : Int)
    (p : Int × List CombinedResultForDropMatrix) (hp : ¬ p.2 = [])
    (e : DropMatrixElement)
    (he : e ∈ groupMatrixOut server dropInfosForRange itemDropSet itemIdFilter
      stageId p) :
    e.stageID = stageId ∧ e.rangeID = p.1 := by
  unfold groupMatrixOut at he
  rw [processGroup_out server dropInfosForRange itemDropSet itemIdFilter stageId p.1
    _ p.2 [] hp] at he
  rcases List.mem_append.mp he with h | h
  · obtain ⟨c, _, rfl⟩ := List.mem_map.mp h
    exact ⟨rfl, rfl⟩
  · obtain ⟨iId, _, rfl⟩ := List.mem_map.mp h
    exact ⟨rfl, rfl⟩

/-- Every element of a stage group's output carries the stage id. -/
theorem stageMatrixOut_stage (server : String)
    (dropInfosForRange : TimeRange → List DropInfo)
    (itemDropSet : Int → Int → List Int) (itemIdFilter : List Int)
    (p : Int × List CombinedResultForDropMatrix) (e : DropMatrixElement)
    (he : e ∈ stageMatrixOut server dropInfosForRange itemDropSet itemIdFilter p) :
    e.stageID = p.1 := by
  unfold stageMatrixOut at he
  obtain ⟨l, hl, hel⟩ := List.mem_flatten.mp he
  obtain ⟨q, hq, rfl⟩ := List.mem_map.mp hl
  exact (groupMatrixOut_keys server dropInfosForRange itemDropSet itemIdFilter p.1 q
    (groupPairsBy_mem (fun el => el.timeRange.rangeID) p.2 q.1 q.2 hq).2 e hel).1

/-- Filtering a keyed concatenation for a key that labels no part gives
nothing. -/
theorem filter_flatten_out_no_key {γ : Type}
    (out : Int × γ → List DropMatrixElement) (keyOf : DropMatrixElement → Int)
    (p : DropMatrixElement → Bool) (s : Int)
    (hp : ∀ e, p e = true → keyOf e = s) :
    ∀ L : List (Int × γ),
      (∀ q ∈ L, ∀ e ∈ out q, keyOf e = q.1) →
      s ∉ L.map Prod.fst →
      ((L.map out).flatten).filter p = [] := by
  intro L
  induction L with
  | nil => intro _ _; rfl
  | cons q rest ih =>
    intro hout hs
    simp only [List.map_cons, List.mem_cons, not_or] at hs
    simp only [List.map_cons, List.flatten_cons, List.filter_append]
    rw [ih (fun q2 h2 => hout q2 (List.mem_cons_of_mem q h2)) hs.2]
    rw [List.filter_eq_nil_iff.mpr
      (fun e he hpe => hs.1 ((hp e hpe).symm.trans (hout q (List.mem_cons_self q rest) e he)))]
    rfl

/-- Filtering a keyed concatenation with distinct part keys isolates the
named part. -/
theorem filter_flatten_out_key {γ : Type}
    (out : Int × γ → List DropMatrixElement) (keyOf : DropMatrixElement → Int)
    (p : DropMatrixElement → Bool) (s : Int)
    (hp : ∀ e, p e = true → keyOf e = s) (g : γ) :
    ∀ L : List (Int × γ),
      (∀ q ∈ L, ∀ e ∈ out q, keyOf e = q.1) →
      (s, g) ∈ L → (L.map Prod.fst).Nodup →
      ((L.map out).flatten).filter p = (out (s, g)).filter p := by
  intro L
  induction L with
  | nil => intro _ hmem _; exact absurd hmem (List.not_mem_nil _)
  | cons q rest ih =>
    intro hout hmem hnd
    simp only [List.map_cons, List.nodup_cons] at hnd
    obtain ⟨hnotin, hnd2⟩ := hnd
    simp only [List.map_cons, List.flatten_cons, List.filter_append]
    rcases List.mem_cons.mp hmem with rfl | hmem2
    · rw [filter_flatten_out_no_key out keyOf p s hp rest
        (fun q2 h2 => hout q2 (List.mem_cons_of_mem _ h2)) hnotin]
      simp
    · have hqs : ¬ q.1 = s := by
        intro he
        exact hnotin (he ▸ List.mem_map.mpr ⟨(s, g), hmem2, rfl⟩)
      rw [List.filter_eq_nil_iff.mpr
        (fun e he hpe => hqs ((hout q (List.mem_cons_self q rest) e he).symm.trans
          (hp e hpe)))]
      rw [List.nil_append]
      exact ih (fun q2 h2 => hout q2 (List.mem_cons_of_mem q h2)) hmem2 hnd2

/-- In a list whose images under `f` are distinct, filtering at a
member's image yields exactly that member. -/
theorem filter_eq_singleton_of_nodup_map {α : Type} (f : α → Int) :
    ∀ (l : List α) (x : α), (l.map f).Nodup → x ∈ l →
      l.filter (fun y => f y = f x) = [x] := by
  intro l
  induction l with
  | nil => intro x _ hx; exact absurd hx (List.not_mem_nil x)
  | cons a rest ih =>
    intro x hnd hx
    simp only [List.map_cons, List.nodup_cons] at hnd
    obtain ⟨hna, hnd2⟩ := hnd
    rcases List.mem_cons.mp hx with rfl | hx2
    · simp only [List.filter_cons, decide_True, eq_self_iff_true, if_true]
      rw [List.filter_eq_nil_iff.mpr ?_]
      · intro y hy hpy
        exact hna ((of_decide_eq_true hpy) ▸ List.mem_map.mpr ⟨y, hy, rfl⟩)
    · have hax : ¬ f a = f x := fun he =>
        hna (he ▸ List.mem_map.mpr ⟨x, hx2, rfl⟩)
      simp only [List.filter_cons, hax, decide_False, if_false]
      exact ih x hnd2 hx2

/-- In a list of distinct values, filtering at a member yields exactly
that member. -/
theorem filter_eq_singleton_of_nodup :
    ∀ (l : List Int) (x : Int), l.Nodup → x ∈ l →
      l.filter (fun y => y = x) = [x] := by
  intro l
  induction l with
  | nil => intro x _ hx; exact absurd hx (List.not_mem_nil x)
  | cons a rest ih =>
    intro x hnd hx
    rw [List.nodup_cons] at hnd
    obtain ⟨hna, hnd2⟩ := hnd
    rcases List.mem_cons.mp hx with rfl | hx2
    · simp only [List.filter_cons, decide_True, eq_self_iff_true, if_true]
      rw [List.filter_eq_nil_iff.mpr ?_]
      · intro y hy hpy
        exact hna ((of_decide_eq_true hpy) ▸ hy)
    · have hax : ¬ a = x := fun he => hna (he ▸ hx2)
      simp only [List.filter_cons, hax, decide_False, if_false]
      exact ih x hnd2 hx2

/-- A non-empty group whose rows agree on `times` has that value as its
last member's times. -/
theorem lastTimes_of_uniform (t : Int) :
    ∀ g : List CombinedResultForDropMatrix, ¬ g = [] →
      (∀ c ∈ g, c.times = t) → lastTimes g = t := by
  intro g
  induction g with
  | nil => intro h _; exact absurd rfl h
  | cons a rest ih =>
    intro _ huni
    cases rest with
    | nil =>
      simp only [lastTimes, List.getLast?_singleton, Option.map_some, Option.getD_some]
      exact huni a (List.mem_cons_self a [])
    | cons b bs =>
      have : lastTimes (a :: b :: bs) = lastTimes (b :: bs) := by
        simp [lastTimes, List.getLast?_cons_cons]
      rw [this]
      exact ih (by simp) (fun c hc => huni c (List.mem_cons_of_mem a hc))

/-- The `(stage, rangeId)` group of the combined results: the nested
grouping's filter at the two keys. -/
def stageRangeGroup (combined : List CombinedResultForDropMatrix) (s r : Int) :
    List CombinedResultForDropMatrix :=
  (combined.filter (fun c => c.stageID = s)).filter
    (fun c => c.timeRange.rangeID = r)

/-- `el2.Group[0].TimeRange`: the range descriptor a group is processed
with. -/
def groupHeadTimeRange (g : List CombinedResultForDropMatrix) : TimeRange :=
  ((g.head?).map (fun el => el.timeRange)).getD ⟨0, 0, 0⟩

/-- C3: among the elements built by `calcDropMatrixForTimeRanges`'s
grouping step, for every `(stage, rangeId)` group — witnessed by a
combined row, with non-zero report times `t` shared by the group's rows
and with the group's items distinct — every item of the expected drop
set (intersected with the item filter inside `expectedDropItemIds`)
appears exactly once: with its observed quantity when a combined row
carries it, else as a zero-quantity element whose times equals the
group's `t`. -/
theorem calc_group_completeness (server : String)
    (dropInfosForRange : TimeRange → List DropInfo)
    (itemDropSet : Int → Int → List Int) (itemIdFilter : List Int)
    (combined : List CombinedResultForDropMatrix) (s r i t : Int)
    (c0 : CombinedResultForDropMatrix) (hc0 : c0 ∈ combined)
    (hc0s : c0.stageID = s) (hc0r : c0.timeRange.rangeID = r)
    (ht : ∀ c ∈ combined, c.stageID = s → c.timeRange.rangeID = r → c.times = t)
    (htnz : ¬ t = 0)
    (hitems : ((stageRangeGroup combined s r).map (fun c => c.itemID)).Nodup)
    (hi : i ∈ expectedDropItemIds dropInfosForRange itemDropSet itemIdFilter s r
      (groupHeadTimeRange (stageRangeGroup combined s r))) :
    ((buildDropMatrixElements server dropInfosForRange itemDropSet itemIdFilter
        combined).filter
      (fun e => e.stageID = s ∧ e.rangeID = r ∧ e.itemID = i)).length = 1 ∧
    (∀ e ∈ buildDropMatrixElements server dropInfosForRange itemDropSet itemIdFilter
        combined,
      e.stageID = s → e.rangeID = r → e.itemID = i →
      e.times = t ∧
      ((∃ c ∈ stageRangeGroup combined s r, c.itemID = i ∧ e.quantity = c.quantity) ∨
       ((¬ ∃ c ∈ stageRangeGroup combined s r, c.itemID = i) ∧ e.quantity = 0))) := by
  have hc0f : c0 ∈ combined.filter (fun c => c.stageID = s) :=
    List.mem_filter.mpr ⟨hc0, by simp [hc0s]⟩
  have hc0G : c0 ∈ stageRangeGroup combined s r :=
    List.mem_filter.mpr ⟨hc0f, by simp [hc0r]⟩
  have hGne : ¬ stageRangeGroup combined s r = [] := by
    intro h
    rw [h] at hc0G
    exact List.not_mem_nil c0 hc0G
  have hgs : (s, combined.filter (fun c => c.stageID = s)) ∈
      groupPairsBy (fun c => c.stageID) combined := by
    have h2 := groupPairsBy_mem_of_mem (fun c => c.stageID) combined c0 hc0
    simp only [hc0s] at h2
    exact h2
  have hgr : (r, stageRangeGroup combined s r) ∈
      groupPairsBy (fun c => c.timeRange.rangeID)
        (combined.filter (fun c => c.stageID = s)) := by
    have h2 := groupPairsBy_mem_of_mem (fun c => c.timeRange.rangeID) _ c0 hc0f
    simp only [hc0r] at h2
    exact h2
  have hflat : buildDropMatrixElements server dropInfosForRange itemDropSet
      itemIdFilter combined =
      ((groupPairsBy (fun c => c.stageID) combined).map
        (stageMatrixOut server dropInfosForRange itemDropSet itemIdFilter)).flatten := by
    unfold buildDropMatrixElements
    rw [processStageGroups_out]
  have hf1 : (buildDropMatrixElements server dropInfosForRange itemDropSet
      itemIdFilter combined).filter
      (fun e => e.stageID = s ∧ e.rangeID = r ∧ e.itemID = i) =
      (stageMatrixOut server dropInfosForRange itemDropSet itemIdFilter
        (s, combined.filter (fun c => c.stageID = s))).filter
        (fun e => e.stageID = s ∧ e.rangeID = r ∧ e.itemID = i) := by
    rw [hflat]
    exact filter_flatten_out_key
      (stageMatrixOut server dropInfosForRange itemDropSet itemIdFilter)
      (fun e => e.stageID)
      (fun e => decide (e.stageID = s ∧ e.rangeID = r ∧ e.itemID = i)) s
      (fun e hpe => (of_decide_eq_true hpe).1)
      (combined.filter (fun c => c.stageID = s))
      (groupPairsBy (fun c => c.stageID) combined)
      (fun q _ e he => stageMatrixOut_stage server dropInfosForRange itemDropSet
        itemIdFilter q e he)
      hgs
      (groupPairsBy_keys_nodup (fun c => c.stageID) combined)
  have hf2 : (stageMatrixOut server dropInfosForRange itemDropSet itemIdFilter
      (s, combined.filter (fun c => c.stageID = s))).filter
      (fun e => e.stageID = s ∧ e.rangeID = r ∧ e.itemID = i) =
      (groupMatrixOut server dropInfosForRange itemDropSet itemIdFilter s
        (r, stageRangeGroup combined s r)).filter
        (fun e => e.stageID = s ∧ e.rangeID = r ∧ e.itemID = i) := by
    unfold stageMatrixOut
    exact filter_flatten_out_key
      (groupMatrixOut server dropInfosForRange itemDropSet itemIdFilter s)
      (fun e => e.rangeID)
      (fun e => decide (e.stageID = s ∧ e.rangeID = r ∧ e.itemID = i)) r
      (fun e hpe => (of_decide_eq_true hpe).2.1)
      (stageRangeGroup combined s r)
      (groupPairsBy (fun c => c.timeRange.rangeID)
        (combined.filter (fun c => c.stageID = s)))
      (fun q hq e he => (groupMatrixOut_keys server dropInfosForRange itemDropSet
        itemIdFilter s q
        (groupPairsBy_mem (fun c => c.timeRange.rangeID) _ q.1 q.2 hq).2 e he).2)
      hgr
      (groupPairsBy_keys_nodup (fun c => c.timeRange.rangeID)
        (combined.filter (fun c => c.stageID = s)))
  have hf3 : groupMatrixOut server dropInfosForRange itemDropSet itemIdFilter s
      (r, stageRangeGroup combined s r) =
      (stageRangeGroup combined s r).map
        (observedElement server s r
          (groupHeadTimeRange (stageRangeGroup combined s r))) ++
      ((firstOccurrences (expectedDropItemIds dropInfosForRange itemDropSet
          itemIdFilter s r (groupHeadTimeRange (stageRangeGroup combined s r)))).filter
        (fun itemId => ¬ (stageRangeGroup combined s r).any
          (fun el3 => el3.itemID = itemId))).map
        (zeroElement server s r (groupHeadTimeRange (stageRangeGroup combined s r))
          (lastTimes (stageRangeGroup combined s r))) := by
    exact processGroup_out server dropInfosForRange itemDropSet itemIdFilter s r
      (groupHeadTimeRange (stageRangeGroup combined s r))
      (stageRangeGroup combined s r) [] hGne
  have hobs : ((stageRangeGroup combined s r).map
      (observedElement server s r
        (groupHeadTimeRange (stageRangeGroup combined s r)))).filter
      (fun e => e.stageID = s ∧ e.rangeID = r ∧ e.itemID = i) =
      ((stageRangeGroup combined s r).filter (fun c => c.itemID = i)).map
        (observedElement server s r
          (groupHeadTimeRange (stageRangeGroup combined s r))) := by
    rw [List.filter_map]
    congr 1
    apply List.filter_congr
    intro c _
    simp [observedElement, Function.comp, decide_eq_decide]
  have hzero : (((firstOccurrences (expectedDropItemIds dropInfosForRange itemDropSet
      itemIdFilter s r (groupHeadTimeRange (stageRangeGroup combined s r)))).filter
      (fun itemId => ¬ (stageRangeGroup combined s r).any
        (fun el3 => el3.itemID = itemId))).map
      (zeroElement server s r (groupHeadTimeRange (stageRangeGroup combined s r))
        (lastTimes (stageRangeGroup combined s r)))).filter
      (fun e => e.stageID = s ∧ e.rangeID = r ∧ e.itemID = i) =
      (((firstOccurrences (expectedDropItemIds dropInfosForRange itemDropSet
        itemIdFilter s r (groupHeadTimeRange (stageRangeGroup combined s r)))).filter
        (fun itemId => ¬ (stageRangeGroup combined s r).any
          (fun el3 => el3.itemID = itemId))).filter (fun y => y = i)).map
        (zeroElement server s r (groupHeadTimeRange (stageRangeGroup combined s r))
          (lastTimes (stageRangeGroup combined s r))) := by
    rw [List.filter_map]
    congr 1
    apply List.filter_congr
    intro y _
    simp [zeroElement, Function.comp, decide_eq_decide]
  have hfinal : (buildDropMatrixElements server dropInfosForRange itemDropSet
      itemIdFilter combined).filter
      (fun e => e.stageID = s ∧ e.rangeID = r ∧ e.itemID = i) =
      ((stageRangeGroup combined s r).filter (fun c => c.itemID = i)).map
        (observedElement server s r
          (groupHeadTimeRange (stageRangeGroup combined s r))) ++
      (((firstOccurrences (expectedDropItemIds dropInfosForRange itemDropSet
        itemIdFilter s r (groupHeadTimeRange (stageRangeGroup combined s r)))).filter
        (fun itemId => ¬ (stageRangeGroup combined s r).any
          (fun el3 => el3.itemID = itemId))).filter (fun y => y = i)).map
        (zeroElement server s r (groupHeadTimeRange (stageRangeGroup combined s r))
          (lastTimes (stageRangeGroup combined s r))) := by
    rw [hf1, hf2, hf3, List.filter_append, hobs, hzero]
  have huni : ∀ c ∈ stageRangeGroup combined s r, c.times = t := by
    intro c hc
    obtain ⟨hcF, hcr⟩ := List.mem_filter.mp hc
    obtain ⟨hcC, hcs⟩ := List.mem_filter.mp hcF
    exact ht c hcC (of_decide_eq_true hcs) (of_decide_eq_true hcr)
  by_cases hex : ∃ c ∈ stageRangeGroup combined s r, c.itemID = i
  · obtain ⟨ci, hciG, hcii⟩ := hex
    have h1 : (stageRangeGroup combined s r).filter (fun c => c.itemID = i) = [ci] := by
      rw [← hcii]
      exact filter_eq_singleton_of_nodup_map (fun c => c.itemID) _ ci hitems hciG
    have h2 : ((firstOccurrences (expectedDropItemIds dropInfosForRange itemDropSet
        itemIdFilter s r (groupHeadTimeRange (stageRangeGroup combined s r)))).filter
        (fun itemId => ¬ (stageRangeGroup combined s r).any
          (fun el3 => el3.itemID = itemId))).filter (fun y => y = i) = [] := by
      apply List.filter_eq_nil_iff.mpr
      intro a ha hpa
      have hai : a = i := of_decide_eq_true hpa
      subst hai
      have hcond := of_decide_eq_true (List.mem_filter.mp ha).2
      exact hcond (List.any_eq_true.mpr ⟨ci, hciG, by simp [hcii]⟩)
    constructor
    · rw [hfinal, h1, h2]
      simp
    · intro e he hes her hei
      have hef : e ∈ (buildDropMatrixElements server dropInfosForRange itemDropSet
          itemIdFilter combined).filter
          (fun e => e.stageID = s ∧ e.rangeID = r ∧ e.itemID = i) :=
        List.mem_filter.mpr ⟨he, by simp [hes, her, hei]⟩
      rw [hfinal, h1, h2] at hef
      simp only [List.map_cons, List.map_nil, List.append_nil, List.mem_singleton] at hef
      subst hef
      refine ⟨?_, Or.inl ⟨ci, hciG, hcii, rfl⟩⟩
      exact huni ci hciG
  · have h1 : (stageRangeGroup combined s r).filter (fun c => c.itemID = i) = [] := by
      apply List.filter_eq_nil_iff.mpr
      intro c hc hpc
      exact hex ⟨c, hc, of_decide_eq_true hpc⟩
    have hiR : i ∈ (firstOccurrences (expectedDropItemIds dropInfosForRange itemDropSet
        itemIdFilter s r (groupHeadTimeRange (stageRangeGroup combined s r)))).filter
        (fun itemId => ¬ (stageRangeGroup combined s r).any
          (fun el3 => el3.itemID = itemId)) := by
      refine List.mem_filter.mpr ⟨(mem_firstOccurrences i _).mpr hi, ?_⟩
      apply decide_eq_true
      intro hany
      obtain ⟨c, hc, hpc⟩ := List.any_eq_true.mp hany
      exact hex ⟨c, hc, of_decide_eq_true hpc⟩
    have hndR : ((firstOccurrences (expectedDropItemIds dropInfosForRange itemDropSet
        itemIdFilter s r (groupHeadTimeRange (stageRangeGroup combined s r)))).filter
        (fun itemId => ¬ (stageRangeGroup combined s r).any
          (fun el3 => el3.itemID = itemId))).Nodup :=
      (nodup_firstOccurrences _).filter _
    have h2 : ((firstOccurrences (expectedDropItemIds dropInfosForRange itemDropSet
        itemIdFilter s r (groupHeadTimeRange (stageRangeGroup combined s r)))).filter
        (fun itemId => ¬ (stageRangeGroup combined s r).any
          (fun el3 => el3.itemID = itemId))).filter (fun y => y = i) = [i] :=
      filter_eq_singleton_of_nodup _ i hndR hiR
    constructor
    · rw [hfinal, h1, h2]
      simp
    · intro e he hes her hei
      have hef : e ∈ (buildDropMatrixElements server dropInfosForRange itemDropSet
          itemIdFilter combined).filter
          (fun e => e.stageID = s ∧ e.rangeID = r ∧ e.itemID = i) :=
        List.mem_filter.mpr ⟨he, by simp [hes, her, hei]⟩
      rw [hfinal, h1, h2] at hef
      simp only [List.map_nil, List.map_cons, List.nil_append, List.mem_singleton] at hef
      subst hef
      refine ⟨?_, Or.inr ⟨hex, rfl⟩⟩
      exact lastTimes_of_uniform t _ hGne huni

/-- C3, stated on `calcDropMatrixForTimeRanges` itself: for a
`(stage, rangeId)` group of the calculator's combined results (non-zero
shared report times `t`, distinct items), every expected item appears
exactly once among the produced elements — with its observed quantity
when the group carries it, else as a zero-quantity element with times
`t`. -/
theorem calcDropMatrixForTimeRanges_completeness (server : String)
    (quantityQuery : TimeRange → List TotalQuantityResultForDropMatrix)
    (timesQuery : TimeRange → List TotalTimesResult)
    (dropInfosForRange : TimeRange → List DropInfo)
    (itemDropSet : Int → Int → List Int) (itemIdFilter : List Int)
    (timeRanges : List TimeRange) (s r i t : Int)
    (c0 : CombinedResultForDropMatrix)
    (hc0 : c0 ∈ calcCombinedResults quantityQuery timesQuery timeRanges)
    (hc0s : c0.stageID = s) (hc0r : c0.timeRange.rangeID = r)
    (ht : ∀ c ∈ calcCombinedResults quantityQuery timesQuery timeRanges,
      c.stageID = s → c.timeRange.rangeID = r → c.times = t)
    (htnz : ¬ t = 0)
    (hitems : ((stageRangeGroup (calcCombinedResults quantityQuery timesQuery
      timeRanges) s r).map (fun c => c.itemID)).Nodup)
    (hi : i ∈ expectedDropItemIds dropInfosForRange itemDropSet itemIdFilter s r
      (groupHeadTimeRange (stageRangeGroup (calcCombinedResults quantityQuery
        timesQuery timeRanges) s r))) :
    ((calcDropMatrixForTimeRanges server quantityQuery timesQuery dropInfosForRange
        itemDropSet itemIdFilter timeRanges).filter
      (fun e => e.stageID = s ∧ e.rangeID = r ∧ e.itemID = i)).length = 1 ∧
    (∀ e ∈ calcDropMatrixForTimeRanges server quantityQuery timesQuery
        dropInfosForRange itemDropSet itemIdFilter timeRanges,
      e.stageID = s → e.rangeID = r → e.itemID = i →
      e.times = t ∧
      ((∃ c ∈ stageRangeGroup (calcCombinedResults quantityQuery timesQuery
          timeRanges) s r, c.itemID = i ∧ e.quantity = c.quantity) ∨
       ((¬ ∃ c ∈ stageRangeGroup (calcCombinedResults quantityQuery timesQuery
          timeRanges) s r, c.itemID = i) ∧ e.quantity = 0))) :=
  calc_group_completeness server dropInfosForRange itemDropSet itemIdFilter
    (calcCombinedResults quantityQuery timesQuery timeRanges) s r i t c0 hc0 hc0s
    hc0r ht htnz hitems hi

/-- Quantity query for the C3 witness: stage 1 produced 5 of item 2 in
range 3. -/
def c3quantityQuery : TimeRange → List TotalQuantityResultForDropMatrix :=
  fun tr => if tr.rangeID = 3 then [⟨1, 2, 5⟩] else []

/-- Times query for the C3 witness: stage 1 had 10 reports in range 3. -/
def c3timesQuery : TimeRange → List TotalTimesResult :=
  fun tr => if tr.rangeID = 3 then [⟨1, 10⟩] else []

/-- Item drop set for the C3 witness: stage 1's range 3 is expected to
drop items 2 and 4. -/
def c3itemDropSet : Int → Int → List Int :=
  fun stageId rangeId => if stageId = 1 ∧ rangeId = 3 then [2, 4] else []

/-- Witness for `calcDropMatrixForTimeRanges_completeness`: expected item
4 was never observed, and appears exactly once (zero-filled) in the
output. -/
theorem calcDropMatrixForTimeRanges_completeness_witness :
    ((calcDropMatrixForTimeRanges "CN" c3quantityQuery c3timesQuery (fun _ => [])
        c3itemDropSet [] [⟨3, 0, 100⟩]).filter
      (fun e => e.stageID = 1 ∧ e.rangeID = 3 ∧ e.itemID = 4)).length = 1 :=
  (calcDropMatrixForTimeRanges_completeness "CN" c3quantityQuery c3timesQuery
    (fun _ => []) c3itemDropSet [] [⟨3, 0, 100⟩] 1 3 4 10 ⟨1, 2, 5, 10, ⟨3, 0, 100⟩⟩
    (by decide) rfl rfl (by decide) (by decide) (by decide) (by decide)).1
